import Mathlib

/-!
# Verified model of the SD-metadata extraction pipeline

A shallow embedding, in Lean 4, of the metadata-recovery pipeline of the
`koishi-plugin-sdkkt` repository: format detection (`utils.ts`), the PNG
text-chunk walker (`png.ts`), the LSB steganographic decoder (`stealth.ts`),
the A1111 parameter-string parser (`a1111.ts`), the ComfyUI graph parser
(`comfyui.ts`), the NovelAI JSON parser (`novelai.ts`), the JPEG and WebP
tag scanners (`jpeg.ts`, `webp.ts`) and the orchestrator (`extractor.ts`).

Byte buffers are `List Nat` (one entry per byte).  JavaScript strings are
Lean `String`s, with the JS string primitives (`split`, `trim`, `includes`,
`startsWith`, `toLowerCase`, `indexOf`) re-implemented below with JS
semantics.  External npm libraries and runtime services that the pipeline
calls (zlib, pngjs raster decoding, ExifReader tag decoding, `JSON.parse`,
`JSON.stringify`, the regex engine, UTF-16LE decoding and
`decodeURIComponent`) are abstracted as an `Externals` record of functions;
a library call that may throw is modelled as an `Option`-returning field.
Everything else is translated statement-by-statement from the TypeScript
source.
-/

namespace SDK

/-! ## JavaScript string primitives -/

/-- Whitespace characters removed by `String.prototype.trim` (ASCII part). -/
def isJsSpace (c : Char) : Bool :=
  c = ' ' || c = '\n' || c = '\t' || c = '\r' || c = '\x0b' || c = '\x0c'

/-- Trim a character list on both ends (JS `trim`). -/
def trimChars (l : List Char) : List Char :=
  ((l.dropWhile isJsSpace).reverse.dropWhile isJsSpace).reverse

/-- JS `s.trim()`. -/
def jsTrim (s : String) : String := ⟨trimChars s.data⟩

/-- Split a character list at every occurrence of `sep` (JS single-character
`split`): `"" → [""]`, separators at the ends produce empty pieces. -/
def splitChars (sep : Char) : List Char → List (List Char)
  | [] => [[]]
  | c :: cs =>
    if c = sep then [] :: splitChars sep cs
    else
      match splitChars sep cs with
      | [] => [[c]]
      | h :: t => (c :: h) :: t

/-- JS `s.split(sep)` for a one-character separator. -/
def jsSplit (s : String) (sep : Char) : List String :=
  (splitChars sep s.data).map fun l => ⟨l⟩

/-- JS `s.startsWith(pre)`. -/
def jsStartsWith (s pre : String) : Bool := pre.data.isPrefixOf s.data

/-- `pat` occurs as a contiguous subsequence of `l`. -/
def memSeq (pat : List Char) : List Char → Bool
  | [] => pat.isEmpty
  | c :: cs => pat.isPrefixOf (c :: cs) || memSeq pat cs

/-- JS `s.includes(sub)`. -/
def jsIncludes (s sub : String) : Bool := memSeq sub.data s.data

/-- JS `s.toLowerCase()` (ASCII letters). -/
def jsToLower (s : String) : String := ⟨s.data.map Char.toLower⟩

/-- Split a character list at the first occurrence of `sep`
(JS `indexOf` + two `substring`s); `none` when `sep` does not occur. -/
def splitAtFirst (sep : Char) : List Char → Option (List Char × List Char)
  | [] => none
  | c :: cs =>
    if c = sep then some ([], cs)
    else (splitAtFirst sep cs).map fun p => (c :: p.1, p.2)

/-- JS `array.join(sep)`. -/
def joinSep (sep : String) : List String → String
  | [] => ""
  | [x] => x
  | x :: y :: xs => x ++ sep ++ joinSep sep (y :: xs)

/-- JS truthiness of an optional string field of a metadata record:
`!m.field` is true when the field is absent or the empty string. -/
def strFalsy : Option String → Bool
  | none => true
  | some s => s = ""

/-- First truthy string out of an `a || b` chain of optional strings. -/
def firstTruthy (a b : Option String) : Option String :=
  if strFalsy a then (if strFalsy b then none else b) else a

/-! ## The canonical metadata record and parse results (`types.ts`) -/

/-- JSON-ish runtime values (`any` in the TypeScript source).  `undefined`
models JavaScript undefined (absent property / out-of-range index).
Numbers are modelled as integers. -/
inductive JVal where
  | undefined : JVal
  | jnull : JVal
  | jbool : Bool → JVal
  | jnum : Int → JVal
  | jstr : String → JVal
  | jarr : List JVal → JVal
  | jobj : List (String × JVal) → JVal
deriving Repr

/-- JS truthiness of a runtime value. -/
def jTruthy : JVal → Bool
  | .undefined => false
  | .jnull => false
  | .jbool b => b
  | .jnum n => n ≠ 0
  | .jstr s => s ≠ ""
  | .jarr _ => true
  | .jobj _ => true

/-- `v !== undefined && v !== null && v !== ''` (strict comparisons). -/
def jDefined : JVal → Bool
  | .undefined => false
  | .jnull => false
  | .jstr s => s ≠ ""
  | _ => true

/-- Property access `v[k]` on a runtime value (`undefined` when absent or
when `v` is not an object). -/
def jget (v : JVal) (k : String) : JVal :=
  match v with
  | .jobj fs =>
    match (fs.filter fun kv => kv.1 = k).getLast? with
    | some kv => kv.2
    | none => .undefined
  | _ => .undefined

/-- Index access `v[i]` for a numeric index. -/
def jidx (v : JVal) (i : Nat) : JVal :=
  match v with
  | .jarr xs => xs.getD i .undefined
  | _ => .undefined

mutual

/-- JS `String(v)` coercion. -/
def jvalToString : JVal → String
  | .undefined => "undefined"
  | .jnull => "null"
  | .jbool true => "true"
  | .jbool false => "false"
  | .jnum n => toString n
  | .jstr s => s
  | .jarr xs => jvalListToString xs
  | .jobj _ => "[object Object]"

/-- JS `Array.prototype.toString`: elements joined by `,`, with `null` and
`undefined` elements rendered as empty strings. -/
def jvalListToString : List JVal → String
  | [] => ""
  | [x] =>
    match x with
    | .jnull => ""
    | .undefined => ""
    | v => jvalToString v
  | x :: y :: xs =>
    (match x with
     | .jnull => ""
     | .undefined => ""
     | v => jvalToString v) ++ "," ++ jvalListToString (y :: xs)

end

/-- The canonical metadata record (`SDMetadata` in `types.ts`).  A field
holds `some v` exactly when the corresponding JavaScript object key has
been assigned (possibly to the empty string). -/
structure SDMetadata where
  prompt : Option String := none
  negativePrompt : Option String := none
  steps : Option String := none
  sampler : Option String := none
  cfgScale : Option String := none
  seed : Option String := none
  size : Option String := none
  model : Option String := none
  parameters : Option String := none
  naiBasePrompt : Option String := none
  naiCharPrompts : Option (List String) := none
  naiNegBasePrompt : Option String := none
  naiNegCharPrompts : Option (List String) := none
  naiVibe : Option Bool := none
  naiCharRefs : Option (List String) := none
  exifFallback : Option (List (String × JVal)) := none
deriving Repr

/-- `Object.keys(metadata).length === 0`. -/
def isEmptyMeta (m : SDMetadata) : Bool :=
  m.prompt.isNone && m.negativePrompt.isNone && m.steps.isNone &&
  m.sampler.isNone && m.cfgScale.isNone && m.seed.isNone &&
  m.size.isNone && m.model.isNone && m.parameters.isNone &&
  m.naiBasePrompt.isNone && m.naiCharPrompts.isNone &&
  m.naiNegBasePrompt.isNone && m.naiNegCharPrompts.isNone &&
  m.naiVibe.isNone && m.naiCharRefs.isNone && m.exifFallback.isNone

/-- `ParseResult<T>` from `types.ts`. -/
structure ParseResult (α : Type) where
  success : Bool
  data : Option α := none
  error : Option String := none
deriving Repr

/-! ## A1111 parameter parser (`a1111.ts`) -/

/-- One `key: value` pair of a parameter line (`parseParameterLine` body):
split at the first colon, trim both halves, skip the pair when either half
is empty, then run the case-insensitive substring cascade.  Each branch
overwrites the matching canonical field. -/
def processParam (m : SDMetadata) (param : String) : SDMetadata :=
  match splitAtFirst ':' param.data with
  | none => m
  | some (k, v) =>
    let key := jsTrim ⟨k⟩
    let value := jsTrim ⟨v⟩
    if key = "" || value = "" then m
    else
      let lowerKey := jsToLower key
      if jsIncludes lowerKey "steps" then { m with steps := some value }
      else if jsIncludes lowerKey "sampler" then { m with sampler := some value }
      else if jsIncludes lowerKey "cfg" && jsIncludes lowerKey "scale" then
        { m with cfgScale := some value }
      else if jsIncludes lowerKey "seed" then { m with seed := some value }
      else if jsIncludes lowerKey "size" then { m with size := some value }
      else if jsIncludes lowerKey "model" && !jsIncludes lowerKey "hash" then
        { m with model := some value }
      else m

/-- The comma-separated, trimmed, non-empty pieces of a parameter line. -/
def paramsOf (line : String) : List String :=
  ((jsSplit line ',').map jsTrim).filter fun p => p ≠ ""

/-- `parseParameterLine` from `a1111.ts`. -/
def parseParameterLine (line : String) (m : SDMetadata) : SDMetadata :=
  (paramsOf line).foldl processParam m

/-- The break condition of the prompt-collection loop: the trimmed line
starts with `"Negative prompt:"` or `"Steps:"`. -/
def isMarkerLine (l : String) : Bool :=
  jsStartsWith (jsTrim l) "Negative prompt:" || jsStartsWith (jsTrim l) "Steps:"

/-- The prompt-collection loop of `parseA1111Parameters`: walk the lines in
order, stop at the first marker line, collect the non-blank trimmed lines
seen before it. -/
def collectPrompt : List String → List String
  | [] => []
  | l :: rest =>
    let t := jsTrim l
    if isMarkerLine l then []
    else (if t ≠ "" then [t] else []) ++ collectPrompt rest

/-- `paramsStartIndex`: index of the first marker line, `0` when none
(the loop variable keeps its initial value when the loop never breaks). -/
def findParamsStart (lines : List String) : Nat :=
  match lines.findIdx? isMarkerLine with
  | some i => i
  | none => 0

/-- One iteration of the parameter loop of `parseA1111Parameters`. -/
def processA1111Line (m : SDMetadata) (rawLine : String) : SDMetadata :=
  let line := jsTrim rawLine
  if line = "" then m
  else if jsStartsWith line "Negative prompt:" then
    { m with negativePrompt := some (jsTrim ⟨line.data.drop 16⟩) }
  else parseParameterLine line m

/-- `parseA1111Parameters` from `a1111.ts`.  The TypeScript mutates the
record it is given; the embedding returns the updated record. -/
def parseA1111Parameters (parameters : String) (metadata : SDMetadata) : SDMetadata :=
  if parameters = "" then metadata
  else
    let lines := jsSplit parameters '\n'
    if lines = [] then metadata
    else
      let promptLines := collectPrompt lines
      let m1 := { metadata with prompt := some (jsTrim (joinSep "\n" promptLines)) }
      (lines.drop (findParamsStart lines)).foldl processA1111Line m1

/-! ## Byte-buffer primitives (Node `Buffer`) -/

/-- Read one byte; reads past the end yield `undefined`, which the only
arithmetic uses below coerce to `0`. -/
def byteAt (b : List Nat) (i : Nat) : Nat := b.getD i 0

/-- `buffer.readUInt32BE(i)` (callers below only use it in bounds). -/
def readUInt32BE (b : List Nat) (i : Nat) : Nat :=
  byteAt b i * 16777216 + byteAt b (i + 1) * 65536 +
  byteAt b (i + 2) * 256 + byteAt b (i + 3)

/-- `buffer.readUInt16BE(i)`. -/
def readUInt16BE (b : List Nat) (i : Nat) : Nat :=
  byteAt b i * 256 + byteAt b (i + 1)

/-- `buffer.readUInt32LE(i)`. -/
def readUInt32LE (b : List Nat) (i : Nat) : Nat :=
  byteAt b i + byteAt b (i + 1) * 256 +
  byteAt b (i + 2) * 65536 + byteAt b (i + 3) * 16777216

/-- `buffer.slice(start, stop)` (clamped, as in Node). -/
def sliceBytes (b : List Nat) (start stop : Nat) : List Nat :=
  (b.drop start).take (stop - start)

/-- `buffer.indexOf(byte)`. -/
def indexOfByte : List Nat → Nat → Option Nat
  | [], _ => none
  | x :: xs, v => if x = v then some 0 else (indexOfByte xs v).map (· + 1)

/-- `buffer.indexOf(byte, start)`. -/
def indexOfByteFrom (l : List Nat) (v start : Nat) : Option Nat :=
  (indexOfByte (l.drop start) v).map (· + start)

/-- First index `≥ start` at which the byte pattern `pat` occurs in `hay`
(`buffer.indexOf(pattern, start)`). -/
def indexOfSeqFrom (hay pat : List Nat) (start : Nat) : Option Nat :=
  ((List.range (hay.length + 1)).filter fun k => start ≤ k).find?
    fun k => pat.isPrefixOf (hay.drop k)

/-- `Buffer.from(asciiString)` and pattern literals (ASCII payloads). -/
def strBytes (s : String) : List Nat := s.data.map Char.toNat

/-! ## Text decodings of byte buffers -/

/-- Node `buffer.toString('ascii')`: each byte masked to 7 bits. -/
def asciiDecode (bytes : List Nat) : String :=
  ⟨bytes.map fun b => Char.ofNat (b % 128)⟩

/-- Node `buffer.toString('latin1')`: each byte is one code point. -/
def latin1Decode (bytes : List Nat) : String :=
  ⟨bytes.map fun b => Char.ofNat (b % 256)⟩

/-- Unicode replacement character produced for invalid UTF-8 input. -/
def replChar : Char := Char.ofNat 0xFFFD

/-- Second, third or fourth byte of a multi-byte UTF-8 sequence. -/
def isCont (b : Nat) : Bool := 128 ≤ b && b < 192

/-- Node `buffer.toString('utf8')`: standard UTF-8 decoding with the
replacement character for malformed sequences.  The fuel argument (one
unit per produced character, at least the byte count plus one) makes the
recursion structural. -/
def utf8Chars : Nat → List Nat → List Char
  | 0, _ => []
  | _, [] => []
  | fuel + 1, b :: rest =>
    if b < 128 then Char.ofNat b :: utf8Chars fuel rest
    else if 192 ≤ b && b < 224 then
      if rest.length < 1 then [replChar]
      else if isCont (byteAt rest 0) then
        let code := (b - 192) * 64 + (byteAt rest 0 - 128)
        (if Nat.isValidChar code then Char.ofNat code else replChar) ::
          utf8Chars fuel (rest.drop 1)
      else replChar :: utf8Chars fuel rest
    else if 224 ≤ b && b < 240 then
      if rest.length < 2 then [replChar]
      else if isCont (byteAt rest 0) && isCont (byteAt rest 1) then
        let code := (b - 224) * 4096 + (byteAt rest 0 - 128) * 64 + (byteAt rest 1 - 128)
        (if Nat.isValidChar code then Char.ofNat code else replChar) ::
          utf8Chars fuel (rest.drop 2)
      else replChar :: utf8Chars fuel rest
    else if 240 ≤ b && b < 248 then
      if rest.length < 3 then [replChar]
      else if isCont (byteAt rest 0) && isCont (byteAt rest 1) && isCont (byteAt rest 2) then
        let code := (b - 240) * 262144 + (byteAt rest 0 - 128) * 4096 +
          (byteAt rest 1 - 128) * 64 + (byteAt rest 2 - 128)
        (if Nat.isValidChar code then Char.ofNat code else replChar) ::
          utf8Chars fuel (rest.drop 3)
      else replChar :: utf8Chars fuel rest
    else replChar :: utf8Chars fuel rest

/-- Node `buffer.toString('utf8')`. -/
def utf8Decode (bytes : List Nat) : String := ⟨utf8Chars (bytes.length + 1) bytes⟩

/-! ## External libraries and runtime services

The pipeline calls several npm libraries and JS runtime services it does
not implement itself: zlib (`gunzipSync`, `inflateSync`), pngjs
(`PNG.sync.read`), ExifReader (`ExifReader.load`), `JSON.parse`,
`JSON.stringify`, the regex engine (`String.prototype.match`), UTF-16LE
decoding, and `decodeURIComponent`.  They are abstracted as a record of
functions; a call that can throw is an `Option`-returning field with
`none` for the exceptional outcome. -/

/-- The raster image handed to the steganographic decoder by pngjs:
`{ width, height, data }`, `data` being RGBA bytes in row-major order. -/
structure PNGImage where
  width : Nat
  height : Nat
  data : List Nat
deriving Repr

/-- The tag tree returned by ExifReader (`expanded: true`): the `exif`
group is an insertion-ordered association of tag names to tag objects;
`xmp` and `iptc` are raw tag groups. -/
structure ExifTags where
  exif : Option (List (String × JVal)) := none
  xmp : Option JVal := none
  iptc : Option JVal := none

/-- External collaborators of the pipeline. -/
structure Externals where
  gunzip : List Nat → Option (List Nat)
  inflate : List Nat → Option (List Nat)
  pngDecode : List Nat → Option PNGImage
  exifLoad : List Nat → Option ExifTags
  jsonParse : String → Option JVal
  jsonStringify : JVal → Option String
  regexMatch : String → String → Option (List String)
  utf16le : List Nat → String
  urlDecode : String → Option String

/-- Externals whose every fallible service fails; used to evaluate code
paths that never consult an external collaborator. -/
def inertExternals : Externals where
  gunzip := fun _ => none
  inflate := fun _ => none
  pngDecode := fun _ => none
  exifLoad := fun _ => none
  jsonParse := fun _ => none
  jsonStringify := fun _ => none
  regexMatch := fun _ _ => none
  utf16le := fun _ => ""
  urlDecode := fun _ => none

/-! ## PNG text chunks (`png.ts`) -/

/-- The `PNGTextChunks` keyword→text object, as an insertion-ordered
association list with JavaScript assignment semantics. -/
abbrev TextChunks : Type := List (String × String)

/-- JavaScript object assignment `obj[k] = v` on an insertion-ordered
association list: replace in place when the key exists, append
otherwise. -/
def recSet (r : List (String × α)) (k : String) (v : α) : List (String × α) :=
  if (List.any r fun kv => kv.1 = k) then
    List.map (fun kv => if kv.1 = k then (k, v) else kv) r
  else r ++ [(k, v)]

/-- `textChunks[keyword]` lookup. -/
def tcGet (tc : TextChunks) (k : String) : Option String :=
  (List.find? (fun kv => kv.1 = k) tc).map fun kv => kv.2

/-- Truthiness of a looked-up text chunk (`if (textChunks.x)`). -/
def tcTruthy (tc : TextChunks) (k : String) : Bool := !strFalsy (tcGet tc k)

/-- `parseTextChunk` (tEXt: `keyword NUL text`). -/
def parseTextChunk (chunkData : List Nat) (tc : TextChunks) : TextChunks :=
  match indexOfByte chunkData 0 with
  | none => tc
  | some nullIndex =>
    recSet tc (latin1Decode (chunkData.take nullIndex))
      (utf8Decode (chunkData.drop (nullIndex + 1)))

/-- `parseInternationalTextChunk` (iTXt: `keyword NUL flag method lang NUL
translated NUL text`); a compressed text (flag 1, method 0) is gunzipped,
falling back to the raw bytes when decompression fails. -/
def parseInternationalTextChunk (ext : Externals) (chunkData : List Nat)
    (tc : TextChunks) : TextChunks :=
  match indexOfByte chunkData 0 with
  | none => tc
  | some nullIndex =>
    let keyword := latin1Decode (chunkData.take nullIndex)
    let compressionFlag := chunkData.get? (nullIndex + 1)
    let compressionMethod := chunkData.get? (nullIndex + 2)
    match indexOfByteFrom chunkData 0 (nullIndex + 3) with
    | none => tc
    | some langEnd =>
      match indexOfByteFrom chunkData 0 (langEnd + 1) with
      | none => tc
      | some transEnd =>
        let pos := transEnd + 1
        let text :=
          if compressionFlag = some 1 && compressionMethod = some 0 then
            match ext.gunzip (chunkData.drop pos) with
            | some d => utf8Decode d
            | none => utf8Decode (chunkData.drop pos)
          else utf8Decode (chunkData.drop pos)
        recSet tc keyword text

/-- `parseCompressedTextChunk` (zTXt: `keyword NUL method zlibdata`);
method ≠ 0 or a failed inflate drops the chunk. -/
def parseCompressedTextChunk (ext : Externals) (chunkData : List Nat)
    (tc : TextChunks) : TextChunks :=
  match indexOfByte chunkData 0 with
  | none => tc
  | some nullIndex =>
    let keyword := latin1Decode (chunkData.take nullIndex)
    if chunkData.get? (nullIndex + 1) = some 0 then
      match ext.inflate (chunkData.drop (nullIndex + 2)) with
      | some d => recSet tc keyword (utf8Decode d)
      | none => tc
    else tc

/-- The chunk-walking loop of `extractPngTextChunks`: length, type,
payload, CRC; dispatch on the three text-chunk types; stop at IEND or when
the cursor passes `length - 12`.  Each iteration advances the cursor by at
least 12 bytes, so a fuel of `buffer.length + 1` never runs out. -/
def walkChunks (ext : Externals) (buffer : List Nat) :
    Nat → Nat → TextChunks → TextChunks
  | 0, _, tc => tc
  | fuel + 1, offset, tc =>
    if offset < buffer.length - 12 then
      let length := readUInt32BE buffer offset
      let type := asciiDecode (sliceBytes buffer (offset + 4) (offset + 8))
      let chunkData := sliceBytes buffer (offset + 8) (offset + 8 + length)
      let tc' :=
        if type = "tEXt" then parseTextChunk chunkData tc
        else if type = "iTXt" then parseInternationalTextChunk ext chunkData tc
        else if type = "zTXt" then parseCompressedTextChunk ext chunkData tc
        else tc
      if type = "IEND" then tc'
      else walkChunks ext buffer fuel (offset + 8 + length + 4) tc'
    else tc

/-- `extractPngTextChunks` from `png.ts`: skip the 8-byte signature and
walk the chunks; partial parse failures leave the chunks collected so
far. -/
def extractPngTextChunks (ext : Externals) (buffer : List Nat) : TextChunks :=
  walkChunks ext buffer (buffer.length + 1) 8 []

/-! ## Steganographic decoder (`stealth.ts`) -/

/-- The flattened LSBs of the alpha (4th) byte of every pixel, row-major:
pixel `i` contributes `data[4*i + 3] & 1` (an out-of-range read yields
`undefined`, and `undefined & 1` is `0`). -/
def bitsOf (png : PNGImage) : List Nat :=
  (List.range (png.width * png.height)).map fun i => byteAt png.data (4 * i + 3) % 2

/-- `BitReader.readByte` starting at bit position `base`: eight bits
or-ed into a byte, most significant first. -/
def readByteBits (bits : List Nat) (base : Nat) : Nat :=
  (List.range 8).foldl (fun acc i => acc ||| (bits.getD (base + i) 0) <<< (7 - i)) 0

/-- `BitReader.readNBytes` starting at bit position `base`; reading past
the end of the bit array throws in the source (`none` here). -/
def readNBytesO (bits : List Nat) (base n : Nat) : Option (List Nat) :=
  if base + 8 * n ≤ bits.length then
    some ((List.range n).map fun j => readByteBits bits (base + 8 * j))
  else none

/-- `BitReader.readInt32`: four bytes, big-endian, signed
(`Buffer.readInt32BE`). -/
def readInt32O (bits : List Nat) (base : Nat) : Option Int :=
  (readNBytesO bits base 4).map fun bs =>
    let u : Nat := bs.getD 0 0 * 16777216 + bs.getD 1 0 * 65536 +
             bs.getD 2 0 * 256 + bs.getD 3 0
    if u < 2147483648 then (u : Int) else (u : Int) - 4294967296

/-- The 15-byte magic literal of the stealth format. -/
def stealthMagic : String := "stealth_pngcomp"

/-- The key-mapping step of `extractStealthPngMetadata`: recognized JSON
keys copied onto a fresh canonical record (each under a truthiness
guard). -/
def stealthFields (j : JVal) : SDMetadata :=
  let m : SDMetadata := {}
  let m := if jTruthy (jget j "prompt") then
    { m with prompt := some (jvalToString (jget j "prompt")) } else m
  let m := if jTruthy (jget j "negative_prompt") then
    { m with negativePrompt := some (jvalToString (jget j "negative_prompt")) } else m
  let m := if jTruthy (jget j "steps") then
    { m with steps := some (jvalToString (jget j "steps")) } else m
  let m := if jTruthy (jget j "sampler") then
    { m with sampler := some (jvalToString (jget j "sampler")) } else m
  let m := if jTruthy (jget j "cfg_scale") then
    { m with cfgScale := some (jvalToString (jget j "cfg_scale")) } else m
  let m := if jTruthy (jget j "seed") then
    { m with seed := some (jvalToString (jget j "seed")) } else m
  let m := if jTruthy (jget j "size") then
    { m with size := some (jvalToString (jget j "size")) } else m
  let m := if jTruthy (jget j "model") then
    { m with model := some (jvalToString (jget j "model")) } else m
  if jTruthy (jget j "parameters") then
    { m with parameters := some (jvalToString (jget j "parameters")) } else m

/-- `extractStealthPngMetadata` from `stealth.ts`.  The whole body is
wrapped in a `try`/`catch` that returns `null`, so every exceptional path
(bit reads past the end, a fractional `Uint8Array` length when the
declared bit length is not a multiple of 8, gunzip or JSON failures)
is `none`. -/
def extractStealthPngMetadata (ext : Externals) (png : PNGImage) : Option SDMetadata :=
  if png.data.length = 0 then none
  else
    let totalAlphaBits := png.width * png.height
    if totalAlphaBits < 15 * 8 then none
    else
      let lowestBits := bitsOf png
      match readNBytesO lowestBits 0 15 with
      | none => none
      | some magicBytes =>
        let magicString : String := ⟨magicBytes.map fun b => Char.ofNat b⟩
        if magicString ≠ stealthMagic then none
        else
          match readInt32O lowestBits 120 with
          | none => none
          | some dataLength =>
            if dataLength ≤ 0 ∨ dataLength > (totalAlphaBits : Int) - 120 - 32 then none
            else if dataLength % 8 ≠ 0 then none
            else
              match readNBytesO lowestBits 152 (dataLength / 8).toNat with
              | none => none
              | some gzipBytes =>
                match ext.gunzip gzipBytes with
                | none => none
                | some decompressed =>
                  match ext.jsonParse (utf8Decode decompressed) with
                  | none => none
                  | some jsonData => some (stealthFields jsonData)

/-- The 15-byte string spelled by the first 120 alpha LSBs of a raster. -/
def stealthMagicString (png : PNGImage) : String :=
  ⟨(List.range 15).map fun j => Char.ofNat (readByteBits (bitsOf png) (8 * j))⟩

/-- The signed 32-bit bit-length declared by bits 120..151 of a raster. -/
def stealthDeclaredLength (png : PNGImage) : Int :=
  let bits := bitsOf png
  let u := readByteBits bits 120 * 16777216 + readByteBits bits 128 * 65536 +
           readByteBits bits 136 * 256 + readByteBits bits 144
  if u < 2147483648 then (u : Int) else (u : Int) - 4294967296

/-! ## ComfyUI graph parser (`comfyui.ts`)

The node-array form is typed along the `ComfyUINode`/`ComfyUIWorkflow`
interfaces of `types.ts` (the source casts the parsed JSON with
`as ComfyUIWorkflow`); widget values and link rows stay untyped runtime
values.  The id-keyed prompt form is handled directly on runtime
values. -/

/-- A named node input (`{ name?, type?, link? }`). -/
structure NodeInput where
  name : Option String := none
  link : Option Int := none
deriving Repr

/-- A workflow node. -/
structure ComfyUINode where
  id : Option Int := none
  type : String := ""
  widgets_values : Option (List JVal) := none
  inputs : Option (List NodeInput) := none
  title : Option String := none
deriving Repr

/-- A node-array workflow export. -/
structure ComfyUIWorkflow where
  nodes : Option (List ComfyUINode) := none
  links : Option (List (List JVal)) := none
deriving Repr

/-- Decode one entry of a node `inputs` array from runtime values. -/
def decodeInput (v : JVal) : NodeInput where
  name := match jget v "name" with | .jstr s => some s | _ => none
  link := match jget v "link" with | .jnum n => some n | _ => none

/-- Decode one node object from runtime values. -/
def decodeNode (v : JVal) : ComfyUINode where
  id := match jget v "id" with | .jnum n => some n | _ => none
  type := match jget v "type" with | .jstr s => s | _ => ""
  widgets_values := match jget v "widgets_values" with | .jarr xs => some xs | _ => none
  inputs := match jget v "inputs" with | .jarr xs => some (xs.map decodeInput) | _ => none
  title := match jget v "title" with | .jstr s => (if s ≠ "" then some s else none) | _ => none

/-- The `as ComfyUIWorkflow` reading of a parsed JSON value. -/
def decodeWorkflow (v : JVal) : ComfyUIWorkflow where
  nodes := match jget v "nodes" with | .jarr xs => some (xs.map decodeNode) | _ => none
  links := match jget v "links" with
    | .jarr xs => some (xs.map fun l => match l with | .jarr row => row | _ => [])
    | _ => none

/-- The per-node text block collected into the `parameters` audit string:
node header plus the indexed non-empty widget values. -/
def nodeWidgetBlock (node : ComfyUINode) : Option String :=
  match node.widgets_values with
  | some ws =>
    if 0 < ws.length then
      let nodeInfo := "节点: " ++ (if node.type = "" then "Unknown" else node.type) ++
        (match node.title with | some t => " (" ++ t ++ ")" | none => "")
      let widgetsContent := ws.enum.filterMap fun iv =>
        if jDefined iv.2 then
          let strValue := jsTrim (jvalToString iv.2)
          if strValue ≠ "" then some (toString iv.1 ++ ": " ++ strValue) else none
        else none
      if widgetsContent ≠ [] then
        some (nodeInfo ++ "\n" ++ joinSep "\n" widgetsContent)
      else none
    else none
  | none => none

/-- `nodeById` lookup: the map is built in node order, later nodes with
the same id overwriting earlier ones. -/
def nodeByIdOf (nodes : List ComfyUINode) (i : Int) : Option ComfyUINode :=
  (nodes.filter fun n => n.id = some i).getLast?

/-- `linkMap` lookup: rows of length ≥ 5 keyed by their first entry,
later rows overwriting earlier ones. -/
def linkMapOf (wf : ComfyUIWorkflow) (lid : Int) : Option (List JVal) :=
  ((wf.links.getD []).filter fun l =>
    5 ≤ l.length && (match l.getD 0 .undefined with | .jnum k => k = lid | _ => false)).getLast?

/-- The node-scanning loop: break at the first `KSampler`/`KSamplerAdvanced`
(first component), remembering the last `SamplerCustom` seen so far
(second component). -/
def scanSamplers (acc : Option ComfyUINode) :
    List ComfyUINode → Option ComfyUINode × Option ComfyUINode
  | [] => (none, acc)
  | n :: rest =>
    if n.type = "KSampler" || n.type = "KSamplerAdvanced" then (some n, acc)
    else if n.type = "SamplerCustom" then scanSamplers (some n) rest
    else scanSamplers acc rest

/-- The inner input loop of the KSampler branch: resolve the `positive`
and `negative` named inputs through the link map to source-node ids
(`link[1]`); a later input of the same name overwrites an earlier one,
and a link id missing from the map leaves the previous value. -/
def traceInputRoles (lm : Int → Option (List JVal)) (inputs : List NodeInput) :
    Option Int × Option Int :=
  inputs.foldl
    (fun pn inp =>
      if inp.name = some "positive" && inp.link.isSome then
        match inp.link.bind lm with
        | some link =>
          (match link.getD 1 .undefined with | .jnum v => some v | _ => none, pn.2)
        | none => pn
      else if inp.name = some "negative" && inp.link.isSome then
        match inp.link.bind lm with
        | some link =>
          (pn.1, match link.getD 1 .undefined with | .jnum v => some v | _ => none)
        | none => pn
      else pn)
    (none, none)

/-- The four positional KSampler widget reads (seed, steps, cfg, sampler);
an index past the end of the array is `undefined` and skipped. -/
def ksWidgets (vs : List JVal) (m : SDMetadata) : SDMetadata :=
  let m := match vs.get? 0 with
    | some v => { m with seed := some (jvalToString v) } | none => m
  let m := match vs.get? 1 with
    | some v => { m with steps := some (jvalToString v) } | none => m
  let m := match vs.get? 2 with
    | some v => { m with cfgScale := some (jvalToString v) } | none => m
  match vs.get? 3 with
    | some v => { m with sampler := some (jvalToString v) } | none => m

/-- The two positional `SamplerCustom` widget reads. -/
def scWidgets (vs : List JVal) (m : SDMetadata) : SDMetadata :=
  let m := match vs.get? 0 with
    | some v => { m with sampler := some (jvalToString v) } | none => m
  match vs.get? 1 with
    | some v => { m with cfgScale := some (jvalToString v) } | none => m

/-- One node of `extractComfyUIAdditionalData`: checkpoint loaders
contribute `model`, a latent-image node contributes `size`, VAE and LoRA
loaders are appended to the `parameters` audit string. -/
def additionalNode (m : SDMetadata) (node : ComfyUINode) : SDMetadata :=
  let ws := node.widgets_values.getD []
  let m :=
    if (node.type = "CheckpointLoader" || node.type = "CheckpointLoaderSimple") &&
        node.widgets_values.isSome && jTruthy (ws.getD 0 .undefined) then
      let w0 := ws.getD 0 .undefined
      { m with model := some (jvalToString w0),
               parameters := some (jsTrim ((m.parameters.getD "") ++ "\nModel: " ++ jvalToString w0)) }
    else m
  let m :=
    if node.type = "EmptyLatentImage" && node.widgets_values.isSome &&
        jTruthy (ws.getD 1 .undefined) && jTruthy (ws.getD 2 .undefined) then
      { m with size := some (jvalToString (ws.getD 1 .undefined) ++ "x" ++ jvalToString (ws.getD 2 .undefined)) }
    else m
  let m :=
    if node.type = "VAELoader" && node.widgets_values.isSome && jTruthy (ws.getD 0 .undefined) then
      { m with parameters := some (jsTrim ((m.parameters.getD "") ++ "\nVAE: " ++ jvalToString (ws.getD 0 .undefined))) }
    else m
  if node.type = "LoraLoader" && node.widgets_values.isSome && jTruthy (ws.getD 0 .undefined) then
    let strength := if jTruthy (ws.getD 1 .undefined) then ws.getD 1 .undefined else ws.getD 2 .undefined
    { m with parameters := some (jsTrim ((m.parameters.getD "") ++ "\nLoRA: " ++
        jvalToString (ws.getD 0 .undefined) ++ " (str: " ++ jvalToString strength ++ ")")) }
  else m

/-- `extractComfyUIAdditionalData` from `comfyui.ts`. -/
def extractComfyUIAdditionalData (nodes : List ComfyUINode) (m : SDMetadata) : SDMetadata :=
  nodes.foldl additionalNode m

/-- `if (ksamplerNode?.widgets_values) { ... }`: the KSampler widget
reads, skipped when there is no sampler node or no widget array. -/
def ksStep (o : Option ComfyUINode) (m : SDMetadata) : SDMetadata :=
  match o with
  | some k =>
    match k.widgets_values with
    | some vs => ksWidgets vs m
    | none => m
  | none => m

/-- `if (samplerNode?.widgets_values) { ... }`: the `SamplerCustom`
widget reads. -/
def scStep (o : Option ComfyUINode) (m : SDMetadata) : SDMetadata :=
  match o with
  | some k =>
    match k.widgets_values with
    | some vs => scWidgets vs m
    | none => m
  | none => m

/-- `parseComfyUINodeFormat` from `comfyui.ts` (current version, with link
tracing): collect the widget audit block, trace the sampler's
`positive`/`negative` links to their source nodes, fall back to the first
and second `CLIPTextEncode` nodes in file order for an unresolved role,
then read sampler widgets and auxiliary nodes. -/
def parseComfyUINodeFormat (wf : ComfyUIWorkflow) (metadata : SDMetadata) : SDMetadata :=
  match wf.nodes with
  | none => metadata
  | some nodes =>
    let allContent := nodes.filterMap nodeWidgetBlock
    let m0 := if allContent ≠ [] then
      { metadata with parameters := some (joinSep "\n\n" allContent) } else metadata
    let scan := scanSamplers none nodes
    let ksamplerNode := scan.1
    let samplerNode := scan.2
    let roles :=
      match ksamplerNode with
      | some k =>
        match k.inputs with
        | some ins => traceInputRoles (linkMapOf wf) ins
        | none => (none, none)
      | none => (none, none)
    let promptNode := roles.1.bind (nodeByIdOf nodes)
    let negativeNode := roles.2.bind (nodeByIdOf nodes)
    let clipTextNodes := nodes.filter fun n => n.type = "CLIPTextEncode"
    let fallbackPromptNode :=
      if promptNode.isNone || negativeNode.isNone then
        (if promptNode.isNone then clipTextNodes.get? 0 else none)
      else none
    let fallbackNegativeNode :=
      if promptNode.isNone || negativeNode.isNone then
        (if negativeNode.isNone then clipTextNodes.get? 1 else none)
      else none
    let finalPromptNode := promptNode <|> fallbackPromptNode
    let finalNegativeNode := negativeNode <|> fallbackNegativeNode
    let m1 :=
      match finalPromptNode with
      | some n =>
        match n.widgets_values with
        | some (w :: _) => if jTruthy w then { m0 with prompt := some (jvalToString w) } else m0
        | _ => m0
      | none => m0
    let m2 :=
      match finalNegativeNode with
      | some n =>
        match n.widgets_values with
        | some (w :: _) => if jTruthy w then { m1 with negativePrompt := some (jvalToString w) } else m1
        | _ => m1
      | none => m1
    let m3 := ksStep ksamplerNode m2
    let m4 := scStep samplerNode m3
    extractComfyUIAdditionalData nodes m4

/-- `v !== undefined` (strict). -/
def jNotUndefined : JVal → Bool
  | .undefined => false
  | _ => true

/-- `node.class_type === n` for one of the given names. -/
def classTypeIs (node : JVal) (names : List String) : Bool :=
  match jget node "class_type" with
  | .jstr s => names.contains s
  | _ => false

/-- One `Object.entries` iteration of `parseComfyUIPromptFormat`. -/
def promptFormatEntry (m : SDMetadata) (kv : String × JVal) : SDMetadata :=
  let node := kv.2
  match node with
  | .jobj _ =>
    let m :=
      if classTypeIs node ["CLIPTextEncode", "CLIPTextEncoder"] then
        let inputs := if jTruthy (jget node "inputs") then jget node "inputs"
          else jget node "input"
        if !jTruthy inputs then m
        else
          let text :=
            if jTruthy (jget inputs "text") then jget inputs "text"
            else if jTruthy (jget inputs "string") then jget inputs "string"
            else jget inputs "prompt"
          if jTruthy text then
            if strFalsy m.prompt then { m with prompt := some (jvalToString text) }
            else if strFalsy m.negativePrompt then
              { m with negativePrompt := some (jvalToString text) }
            else m
          else m
      else m
    let m :=
      if classTypeIs node ["KSampler", "KSamplerAdvanced"] then
        let inputs := if jTruthy (jget node "inputs") then jget node "inputs"
          else jget node "input"
        if !jTruthy inputs then m
        else
          let m := if jNotUndefined (jget inputs "seed") then
            { m with seed := some (jvalToString (jget inputs "seed")) } else m
          let m := if jNotUndefined (jget inputs "steps") then
            { m with steps := some (jvalToString (jget inputs "steps")) } else m
          let m := if jNotUndefined (jget inputs "cfg") || jNotUndefined (jget inputs "cfg_scale") then
            { m with cfgScale := some (jvalToString
                (if jTruthy (jget inputs "cfg") then jget inputs "cfg"
                 else jget inputs "cfg_scale")) } else m
          let m := if jTruthy (jget inputs "sampler_name") || jTruthy (jget inputs "sampler") then
            { m with sampler := some (jvalToString
                (if jTruthy (jget inputs "sampler_name") then jget inputs "sampler_name"
                 else jget inputs "sampler")) } else m
          if jNotUndefined (jget inputs "denoise") then
            { m with parameters := some (jsTrim ((m.parameters.getD "") ++
                "\nDenoising: " ++ jvalToString (jget inputs "denoise"))) }
          else m
      else m
    if classTypeIs node ["SamplerCustom"] then
      let inputs := if jTruthy (jget node "inputs") then jget node "inputs"
        else jget node "input"
      if !jTruthy inputs then m
      else
        let m := if jNotUndefined (jget inputs "cfg") then
          { m with cfgScale := some (jvalToString (jget inputs "cfg")) } else m
        if jTruthy (jget inputs "guider") then
          match jget inputs "guider" with
          | .jstr s => { m with sampler := some s }
          | g => if jTruthy (jget g "sampler_name") then
              { m with sampler := some (jvalToString (jget g "sampler_name")) }
            else m
        else m
    else m
  | _ => m

/-- `parseComfyUIPromptFormat` from `comfyui.ts`: iterate the id-keyed
entries of the prompt object. -/
def parseComfyUIPromptFormat (p : JVal) (metadata : SDMetadata) : SDMetadata :=
  match p with
  | .jobj fields => fields.foldl promptFormatEntry metadata
  | .jarr xs => (xs.enum.map fun iv => (toString iv.1, iv.2)).foldl promptFormatEntry metadata
  | _ => metadata

/-- `extractComfyUIMetadata` from `comfyui.ts`: `workflow || prompt`,
then shape dispatch (`nodes` array → node format, `prompt` object →
prompt format, any other object → direct prompt object). -/
def extractComfyUIMetadata (workflow prompt : JVal) (metadata : SDMetadata) : SDMetadata :=
  let data := if jTruthy workflow then workflow else prompt
  if !jTruthy data then metadata
  else
    match jget data "nodes" with
    | .jarr _ => parseComfyUINodeFormat (decodeWorkflow data) metadata
    | _ =>
      match jget data "prompt" with
      | .jobj fs => parseComfyUIPromptFormat (.jobj fs) metadata
      | .jarr fs => parseComfyUIPromptFormat (.jarr fs) metadata
      | _ =>
        match data with
        | .jobj _ => parseComfyUIPromptFormat data metadata
        | .jarr _ => parseComfyUIPromptFormat data metadata
        | _ => metadata

/-! ## NovelAI parser (`novelai.ts`) -/

/-- JS `a || b` on runtime values. -/
def jvalOr (a b : JVal) : JVal := if jTruthy a then a else b

/-- `extractDirectorReferences` from `novelai.ts`: zip the description,
strength and secondary-strength arrays up to their maximum length; a
missing entry at an index is left out of that entry's composed string. -/
def extractDirectorReferences (cd : JVal) : List String :=
  let descs := match jget cd "director_reference_descriptions" with | .jarr xs => xs | _ => []
  let strengths := match jget cd "director_reference_strengths" with | .jarr xs => xs | _ => []
  let secondaries := match jget cd "director_reference_secondary_strengths" with | .jarr xs => xs | _ => []
  if 0 < descs.length || 0 < strengths.length then
    (List.range (max descs.length (max strengths.length secondaries.length))).filterMap
      fun i =>
        let desc := descs.getD i .undefined
        let s1 := strengths.getD i .undefined
        let s2 := secondaries.getD i .undefined
        let ref :=
          if jTruthy desc then
            match desc with
            | .jstr s => s
            | _ =>
              if jTruthy (jget desc "caption") then
                if jTruthy (jget (jget desc "caption") "base_caption") then
                  jvalToString (jget (jget desc "caption") "base_caption")
                else ""
              else ""
          else ""
        let ref := if jNotUndefined s1 then
          ref ++ (if ref ≠ "" then " " else "") ++ jvalToString s1 else ref
        let ref := if jNotUndefined s2 then ref ++ "/" ++ jvalToString s2 else ref
        if ref ≠ "" then some ref else none
  else []

/-- The V4 caption block of `extractNovelAIMetadata`, shared by the
positive and negative prompt structures: the base caption and the
filtered character-caption strings. -/
def naiV4Caption (cap : JVal) : Option String × Option (List String) :=
  let base := if jTruthy (jget cap "base_caption") then
    some (jvalToString (jget cap "base_caption")) else none
  let chars :=
    match jget cap "char_captions" with
    | .jarr cs =>
      let strs := cs.filterMap fun c =>
        match jget c "char_caption" with
        | .jstr s => if 0 < s.length then some s else none
        | _ => none
      if 0 < strs.length then some strs else none
    | _ => none
  (base, chars)

/-- `extractNovelAIMetadata` from `novelai.ts`: parse the comment as JSON
(URL-decoded on a second attempt); when both parses fail, fall back to the
A1111 parser if the raw comment carries the `Steps:` signature. -/
def extractNovelAIMetadata (ext : Externals) (comment : String)
    (description : Option String) (metadata : SDMetadata) : SDMetadata :=
  match ext.jsonParse comment <|> ((ext.urlDecode comment).bind ext.jsonParse) with
  | none =>
    if jsIncludes comment "Steps:" then parseA1111Parameters comment metadata
    else metadata
  | some cd =>
    let r := if strFalsy metadata.prompt && !strFalsy description then
      { metadata with prompt := some (description.getD "") } else metadata
    let r := if jTruthy (jget cd "uc") && strFalsy r.negativePrompt then
      { r with negativePrompt := some (jvalToString (jget cd "uc")) } else r
    let r := if jNotUndefined (jget cd "steps") then
      { r with steps := some (jvalToString (jget cd "steps")) } else r
    let r := if jNotUndefined (jget cd "scale") then
      { r with cfgScale := some (jvalToString (jget cd "scale")) } else r
    let r := if jNotUndefined (jget cd "seed") then
      { r with seed := some (jvalToString (jget cd "seed")) } else r
    let r := if jTruthy (jget cd "sampler") then
      { r with sampler := some (jvalToString (jget cd "sampler")) } else r
    let r := match jget cd "uncond_per_vibe" with
      | .jbool b => { r with naiVibe := some b }
      | _ => r
    let r :=
      if jTruthy (jget (jget cd "v4_prompt") "caption") then
        let bc := naiV4Caption (jget (jget cd "v4_prompt") "caption")
        let r := match bc.1 with | some b => { r with naiBasePrompt := some b } | none => r
        match bc.2 with | some cs => { r with naiCharPrompts := some cs } | none => r
      else r
    let r :=
      if jTruthy (jget (jget cd "v4_negative_prompt") "caption") then
        let bc := naiV4Caption (jget (jget cd "v4_negative_prompt") "caption")
        let r := match bc.1 with | some b => { r with naiNegBasePrompt := some b } | none => r
        match bc.2 with | some cs => { r with naiNegCharPrompts := some cs } | none => r
      else r
    let refs := extractDirectorReferences cd
    if 0 < refs.length then { r with naiCharRefs := some refs } else r

/-! ## PNG metadata extraction (`png.ts`) -/

/-- `parseStealthPNGMetadata` from `png.ts`: rasterize with pngjs (a
decode failure is caught) and run the steganographic decoder. -/
def parseStealthPNGMetadata (ext : Externals) (buffer : List Nat) :
    ParseResult SDMetadata :=
  match ext.pngDecode buffer with
  | none => { success := false, error := some "Failed to parse Stealth PNG" }
  | some png =>
    match extractStealthPngMetadata ext png with
    | some md => { success := true, data := some md }
    | none => { success := false, error := some "No Stealth PNG metadata found" }

/-- `Object.assign(metadata, stealthData)`: every key assigned on the
overlay record overwrites the base record. -/
def mergeMeta (m s : SDMetadata) : SDMetadata where
  prompt := s.prompt <|> m.prompt
  negativePrompt := s.negativePrompt <|> m.negativePrompt
  steps := s.steps <|> m.steps
  sampler := s.sampler <|> m.sampler
  cfgScale := s.cfgScale <|> m.cfgScale
  seed := s.seed <|> m.seed
  size := s.size <|> m.size
  model := s.model <|> m.model
  parameters := s.parameters <|> m.parameters
  naiBasePrompt := s.naiBasePrompt <|> m.naiBasePrompt
  naiCharPrompts := s.naiCharPrompts <|> m.naiCharPrompts
  naiNegBasePrompt := s.naiNegBasePrompt <|> m.naiNegBasePrompt
  naiNegCharPrompts := s.naiNegCharPrompts <|> m.naiNegCharPrompts
  naiVibe := s.naiVibe <|> m.naiVibe
  naiCharRefs := s.naiCharRefs <|> m.naiCharRefs
  exifFallback := s.exifFallback <|> m.exifFallback

/-- `parsePNGMetadata` from `png.ts`: text chunks, then the A1111 /
ComfyUI-prompt dispatch, NovelAI sentinel, `Description` and `Comment`
fallbacks, the workflow graph, and finally the steganographic tier when
the record is still empty or lacks the verbatim `parameters` string.
The final return is `success: true` with whatever record was built. -/
def parsePNGMetadata (ext : Externals) (buffer : List Nat) : ParseResult SDMetadata :=
  let textChunks := extractPngTextChunks ext buffer
  let metadata : SDMetadata := {}
  let m1 :=
    if tcTruthy textChunks "parameters" then
      let p := (tcGet textChunks "parameters").getD ""
      parseA1111Parameters p { metadata with parameters := some p }
    else if tcTruthy textChunks "prompt" then
      let p := (tcGet textChunks "prompt").getD ""
      match ext.jsonParse p with
      | some promptData => extractComfyUIMetadata .jnull promptData metadata
      | none => { metadata with prompt := some p }
    else metadata
  let m2 :=
    if tcGet textChunks "Software" = some "NovelAI" ||
        tcGet textChunks "software" = some "NovelAI" then
      let description := firstTruthy (tcGet textChunks "Description") (tcGet textChunks "description")
      let comment := firstTruthy (tcGet textChunks "Comment") (tcGet textChunks "comment")
      match comment with
      | some c => extractNovelAIMetadata ext c description m1
      | none => m1
    else m1
  let m3 :=
    if tcTruthy textChunks "Description" && strFalsy m2.prompt then
      { m2 with prompt := some ((tcGet textChunks "Description").getD "") }
    else m2
  let m4 :=
    if tcTruthy textChunks "Comment" && strFalsy m3.parameters then
      let c := (tcGet textChunks "Comment").getD ""
      match ext.jsonParse c with
      | some cd =>
        if jTruthy (jget cd "prompt") || jTruthy (jget cd "uc") then
          let m := if jTruthy (jget cd "prompt") then
            { m3 with prompt := some (jvalToString (jget cd "prompt")) } else m3
          let m := if jTruthy (jget cd "uc") then
            { m with negativePrompt := some (jvalToString (jget cd "uc")) } else m
          let m := if jTruthy (jget cd "steps") then
            { m with steps := some (jvalToString (jget cd "steps")) } else m
          let m := if jTruthy (jget cd "scale") then
            { m with cfgScale := some (jvalToString (jget cd "scale")) } else m
          let m := if jTruthy (jget cd "seed") then
            { m with seed := some (jvalToString (jget cd "seed")) } else m
          if jTruthy (jget cd "sampler") then
            { m with sampler := some (jvalToString (jget cd "sampler")) } else m
        else m3
      | none =>
        if jsIncludes c "Steps:" then
          parseA1111Parameters c { m3 with parameters := some c }
        else m3
    else m3
  let m5 :=
    if tcTruthy textChunks "workflow" then
      match ext.jsonParse ((tcGet textChunks "workflow").getD "") with
      | some wf => extractComfyUIMetadata wf .jnull m4
      | none => m4
    else m4
  let m6 :=
    if isEmptyMeta m5 || strFalsy m5.parameters then
      let stealthResult := parseStealthPNGMetadata ext buffer
      if stealthResult.success then
        match stealthResult.data with
        | some d => mergeMeta m5 d
        | none => m5
      else m5
    else m5
  { success := true, data := some m6 }

/-! ## JPEG metadata extraction (`jpeg.ts`) -/

/-- The four A1111 signature tokens searched in tag values. -/
def sdTokens (text : String) : Bool :=
  jsIncludes text "Steps:" || jsIncludes text "Sampler:" ||
  jsIncludes text "CFG scale:" || jsIncludes text "Seed:"

/-- The five tokens searched by `extractSegmentText`. -/
def segTokens (text : String) : Bool :=
  sdTokens text || jsIncludes text "prompt"

/-- `s.replace(/\0/g, '')`. -/
def stripNulls (s : String) : String := ⟨s.data.filter fun c => c ≠ '\x00'⟩

/-- JS `text.indexOf(sub)` (`-1` when absent). -/
def strIndexOf (s sub : String) : Int :=
  match ((List.range (s.data.length + 1)).find? fun k =>
      sub.data.isPrefixOf (s.data.drop k)) with
  | some k => (k : Int)
  | none => -1

/-- JS `text.slice(start, stop)` for already-clamped integer positions. -/
def strSliceI (s : String) (start stop : Int) : String :=
  let n := s.data.length
  let st := min (max 0 start).toNat n
  let en := min (max 0 stop).toNat n
  ⟨(s.data.drop st).take (en - st)⟩

/-- `extractSegmentText`: try UTF-8, ASCII and Latin-1 in order, keep the
first decoding carrying a signature token; otherwise unwrap an
`Exif\0\0` header and retry with the two-token check. -/
def extractSegmentText (segmentData : List Nat) : String :=
  if segmentData.length = 0 then ""
  else
    let t1 := utf8Decode segmentData
    if segTokens t1 then t1 else
    let t2 := asciiDecode segmentData
    if segTokens t2 then t2 else
    let t3 := latin1Decode segmentData
    if segTokens t3 then t3 else
    if 6 < segmentData.length && utf8Decode (segmentData.take 6) = "Exif\x00\x00" then
      let ex := segmentData.drop 6
      let e1 := utf8Decode ex
      if jsIncludes e1 "Steps:" || jsIncludes e1 "Sampler:" then e1 else
      let e2 := asciiDecode ex
      if jsIncludes e2 "Steps:" || jsIncludes e2 "Sampler:" then e2 else
      let e3 := latin1Decode ex
      if jsIncludes e3 "Steps:" || jsIncludes e3 "Sampler:" then e3 else ""
    else ""

/-- The marker-walking loop of `extractJpegAppSegments`.  A segment with a
declared length below 2 steps the cursor back over its length bytes, which
are then re-scanned byte-by-byte, so iterations are bounded by a small
multiple of the buffer length; the fuel passed by the wrapper covers
that. -/
def jpegSegLoop (buffer : List Nat) :
    Nat → Nat → List (String × String) → List (String × String)
  | 0, _, segs => segs
  | fuel + 1, offset, segs =>
    if offset < buffer.length - 4 then
      if byteAt buffer offset ≠ 255 then jpegSegLoop buffer fuel (offset + 1) segs
      else
        let marker := byteAt buffer (offset + 1)
        let offset := offset + 2
        if marker = 255 then jpegSegLoop buffer fuel offset segs
        else if marker = 218 || marker = 217 then segs
        else if buffer.length < offset + 2 then segs
        else
          let segmentLength := readUInt16BE buffer offset
          let offset := offset + 2
          if (buffer.length : Int) < (offset : Int) + (segmentLength : Int) - 2 then segs
          else
            let segmentData := sliceBytes buffer offset (offset + segmentLength - 2)
            let segs' :=
              if 224 ≤ marker && marker ≤ 239 then
                let content := extractSegmentText segmentData
                if content ≠ "" then
                  recSet segs ("APP" ++ toString (marker - 224)) content
                else segs
              else if marker = 254 then
                let content := stripNulls (utf8Decode segmentData)
                if content ≠ "" then recSet segs "COM" content else segs
              else segs
            jpegSegLoop buffer fuel (offset + segmentLength - 2) segs'
    else segs

/-- `extractJpegAppSegments` from `jpeg.ts`. -/
def extractJpegAppSegments (buffer : List Nat) : List (String × String) :=
  if buffer.length < 3 || byteAt buffer 0 ≠ 255 || byteAt buffer 1 ≠ 216 ||
      byteAt buffer 2 ≠ 255 then []
  else jpegSegLoop buffer (4 * buffer.length + 16) 2 []

/-- Regex literal `/\x7b[^\x7d]*steps[^\x7d]*\x7d/gi` (JSON-object hunt in
stringified XMP). -/
def xmpJsonObjPattern : String := "/\\\x7b[^\x7d]*steps[^\x7d]*\\\x7d/gi"

/-- Regex literal `/[^\x7d\x7b]*Steps:\s*\d+[^\x7d\x7b]*Sampler:[^\x7d\x7b]*/g`. -/
def xmpPlainPattern : String := "/[^\x7d\x7b]*Steps:\\s*\\d+[^\x7d\x7b]*Sampler:[^\x7d\x7b]*/g"

/-- The JSON-candidate loop of `extractFromXMPLikeText`: parse each regex
match, return the first with `parameters` or a `steps`/`sampler` pair. -/
def xmpJsonLoop (ext : Externals) : List String → Option String
  | [] => none
  | mtxt :: rest =>
    match ext.jsonParse mtxt with
    | some parsed =>
      if jTruthy (jget parsed "parameters") ||
          (jTruthy (jget parsed "steps") && jTruthy (jget parsed "sampler")) then
        some (if jTruthy (jget parsed "parameters") then
            jvalToString (jget parsed "parameters")
          else "Steps: " ++ jvalToString (jget parsed "steps") ++
            ", Sampler: " ++ jvalToString (jget parsed "sampler"))
      else xmpJsonLoop ext rest
    | none => xmpJsonLoop ext rest

/-- `extractFromXMPLikeText` (identical in `jpeg.ts` and `webp.ts`). -/
def extractFromXMPLikeText (ext : Externals) (xmpStr : String) : Option String :=
  let step1 :=
    match ext.regexMatch xmpJsonObjPattern xmpStr with
    | some ms => xmpJsonLoop ext ms
    | none => none
  match step1 with
  | some r => some r
  | none =>
    match ext.regexMatch xmpPlainPattern xmpStr with
    | some (m0 :: _) => some m0
    | _ => none

/-- Regex literal `/Steps:\s*\d+.*?Sampler:\s*[^,\n]+/gi`. -/
def binPattern1 : String := "/Steps:\\s*\\d+.*?Sampler:\\s*[^,\\n]+/gi"

/-- Regex literal `/CFG\s*scale:\s*[\d.]+.*?Seed:\s*\d+/gi`. -/
def binPattern2 : String := "/CFG\\s*scale:\\s*[\\d.]+.*?Seed:\\s*\\d+/gi"

/-- Regex literal `/Negative\s*prompt:\s*[^\n]+/gi`. -/
def binPattern3 : String := "/Negative\\s*prompt:\\s*[^\\n]+/gi"

/-- The four decodings tried by the binary search, in order. -/
def searchDecoders (ext : Externals) : List (List Nat → String) :=
  [utf8Decode, ext.utf16le, latin1Decode, asciiDecode]

/-- Phase 1 of `binarySearchForMetadata`: regex patterns over whole-buffer
decodings, keeping a 100-before/1000-after window around the first match
when the window still carries a token pair. -/
def binRegexPhase (ext : Externals) (buffer : List Nat) : Option String :=
  (searchDecoders ext).findSome? fun dec =>
    let text := dec buffer
    [binPattern1, binPattern2, binPattern3].findSome? fun pattern =>
      match ext.regexMatch pattern text with
      | some (m0 :: _) =>
        let matchIndex := strIndexOf text m0
        let candidate := strSliceI text (max 0 (matchIndex - 100))
          (min (text.data.length : Int) (matchIndex + 1000))
        if jsIncludes candidate "Steps:" &&
            (jsIncludes candidate "Sampler:" || jsIncludes candidate "CFG scale:" ||
             jsIncludes candidate "Seed:") then
          some candidate
        else none
      | _ => none

/-- Phase 2 of `binarySearchForMetadata` (JPEG only): raw APP-segment
scan, returning the first decoding of a segment that carries `Steps:` and
is longer than 50 characters. -/
def binAppScan (ext : Externals) (buffer : List Nat) : Nat → Nat → Option String
  | 0, _ => none
  | fuel + 1, offset =>
    if offset < buffer.length - 10 then
      if byteAt buffer offset = 255 then
        let marker := byteAt buffer (offset + 1)
        if 224 ≤ marker && marker ≤ 239 then
          let length := readUInt16BE buffer (offset + 2)
          let found :=
            if 2 < length && offset + 2 + length ≤ buffer.length then
              let segmentData := sliceBytes buffer (offset + 4) (offset + 2 + length)
              (searchDecoders ext).findSome? fun dec =>
                let text := dec segmentData
                if jsIncludes text "Steps:" && 50 < text.data.length then some text
                else none
            else none
          match found with
          | some t => some t
          | none => binAppScan ext buffer fuel (offset + 2 + length)
        else binAppScan ext buffer fuel (offset + 1)
      else binAppScan ext buffer fuel (offset + 1)
    else none

/-- Phase 3 of `binarySearchForMetadata`, one byte-literal pattern: hop
through its occurrences, decode a 200-before/2000-after byte window, and
return a 100-before/800-after character window around `Steps:` when long
enough. -/
def binPatScan (ext : Externals) (buffer : List Nat) (pat : List Nat) :
    Nat → Option Nat → Option String
  | _, none => none
  | 0, _ => none
  | fuel + 1, some index =>
    let chunk := sliceBytes buffer (index - 200) (min buffer.length (index + 2000))
    let found := (searchDecoders ext).findSome? fun dec =>
      let text := dec chunk
      if jsIncludes text "Steps:" && 50 < text.data.length then
        let stepsIdx := strIndexOf text "Steps:"
        let extracted := strSliceI text (max 0 (stepsIdx - 100))
          (min (text.data.length : Int) (stepsIdx + 800))
        if 50 < extracted.data.length then some extracted else none
      else none
    match found with
    | some t => some t
    | none => binPatScan ext buffer pat fuel (indexOfSeqFrom buffer pat (index + 1))

/-- `binarySearchForMetadata` from `jpeg.ts`. -/
def binarySearchForMetadata (ext : Externals) (buffer : List Nat)
    (fmtJpeg : Bool) : Option String :=
  match binRegexPhase ext buffer with
  | some r => some r
  | none =>
    let phase2 := if fmtJpeg then binAppScan ext buffer (buffer.length + 16) 2 else none
    match phase2 with
    | some r => some r
    | none =>
      [strBytes "Steps:", strBytes "parameters", strBytes "negative_prompt",
       strBytes "prompt:", strBytes "Steps", strBytes "Sampler"].findSome?
        fun pat =>
          binPatScan ext buffer pat (buffer.length + 1) (indexOfSeqFrom buffer pat 0)

/-- The standard EXIF field names searched by `parseJPEGMetadata`. -/
def jpegExifFields : List String :=
  ["UserComment", "ImageDescription", "ImageComment", "XPComment", "XPKeywords",
   "Artist", "Copyright", "Software", "DocumentName", "PageName", "HostComputer",
   "Make", "Model"]

/-- The all-fields EXIF loop of `parseJPEGMetadata`: iterate the tag
entries, skipping the standard names, collecting every visited tag into
the fallback store, and breaking at the first string value with a
signature token (which is handed to the A1111 parser). -/
def scanAllExifFields (skips : List String) :
    List (String × JVal) → List (String × JVal) → SDMetadata →
    List (String × JVal) × SDMetadata
  | [], exifData, m => (exifData, m)
  | (fieldName, field) :: rest, exifData, m =>
    if skips.contains fieldName then scanAllExifFields skips rest exifData m
    else
      let fieldValue := jvalOr (jget field "description")
        (jvalOr (jget field "value") (jget field "text"))
      let exifData := recSet exifData fieldName field
      match fieldValue with
      | .jstr s =>
        if s ≠ "" && sdTokens s then
          (exifData, parseA1111Parameters s { m with parameters := some s })
        else scanAllExifFields skips rest exifData m
      | _ => scanAllExifFields skips rest exifData m

/-- The standard-fields EXIF loop: probe the standard names in order,
collect the present ones, break at the first string
`description || value` with a signature token. -/
def scanStdExifFields (exifObj : List (String × JVal)) :
    List String → List (String × JVal) → SDMetadata →
    List (String × JVal) × SDMetadata
  | [], exifData, m => (exifData, m)
  | fieldName :: rest, exifData, m =>
    let field := jget (.jobj exifObj) fieldName
    if jTruthy field then
      let exifData := recSet exifData fieldName field
      let fieldValue := jvalOr (jget field "description") (jget field "value")
      match fieldValue with
      | .jstr s =>
        if s ≠ "" && sdTokens s then
          (exifData, parseA1111Parameters s { m with parameters := some s })
        else scanStdExifFields exifObj rest exifData m
      | _ => scanStdExifFields exifObj rest exifData m
    else scanStdExifFields exifObj rest exifData m

/-- The NovelAI sentinel branch shared by the JPEG and WebP scanners:
a `Software` tag equal to `NovelAI` routes `UserComment` (and
`ImageDescription`) into the NovelAI parser and keeps the comment as the
verbatim `parameters` string. -/
def naiSentinelBranch (ext : Externals) (exifObj : List (String × JVal))
    (m : SDMetadata) : SDMetadata :=
  if jTruthy (jget (.jobj exifObj) "Software") then
    let sw := jget (.jobj exifObj) "Software"
    let software := jvalOr (jget sw "description") (jget sw "value")
    if (match software with | .jstr s => s = "NovelAI" | _ => false : Bool) then
      let descField := jget (.jobj exifObj) "ImageDescription"
      let descVal := jvalOr (jget descField "description") (jget descField "value")
      let description := if jTruthy descVal then some (jvalToString descVal) else none
      let commentField := jget (.jobj exifObj) "UserComment"
      let commentVal := jvalOr (jget commentField "description") (jget commentField "value")
      if jTruthy commentVal then
        let comment := jvalToString commentVal
        let m := extractNovelAIMetadata ext comment description m
        { m with parameters := some comment }
      else m
    else m
  else m

/-- The XMP branch of `parseJPEGMetadata`: stringify the XMP tree, hunt
for parameter-like content with the two patterns, and run the A1111
parser on a hit; when stringification fails, fall back to a field-based
search over the known XMP description fields. -/
def jpegXmpBranch (ext : Externals) (xmp : JVal) (m : SDMetadata) : SDMetadata :=
  match ext.jsonStringify xmp with
  | some xmpStr =>
    if jsIncludes xmpStr "Steps:" || jsIncludes xmpStr "parameters" then
      let found := [binPattern1, "/\\\x7b\"steps\":\\s*\\d+/g"].findSome? fun pattern =>
        match ext.regexMatch pattern xmpStr with
        | some (_ :: _) =>
          match extractFromXMPLikeText ext xmpStr with
          | some extracted =>
            if jsIncludes extracted "Steps:" then some extracted else none
          | none => none
        | _ => none
      match found with
      | some extracted => parseA1111Parameters extracted { m with parameters := some extracted }
      | none => m
    else m
  | none =>
    let found := ["description", "Description", "dc:description",
        "tiff:ImageDescription"].findSome? fun xmpField =>
      let xmpDesc := jget xmp xmpField
      if jTruthy xmpDesc then
        let descValue : JVal := match xmpDesc with
          | .jstr s => .jstr s
          | _ => jvalOr (jget xmpDesc "value") (jget xmpDesc "description")
        match descValue with
        | .jstr s => if s ≠ "" && jsIncludes s "Steps:" then some s else none
        | _ => none
      else none
    match found with
    | some descValue => parseA1111Parameters descValue { m with parameters := some descValue }
    | none => m

/-- The IPTC branch of `parseJPEGMetadata`: the `Caption/Abstract` field,
when it is (or unwraps to) a string carrying `Steps:`, becomes the
verbatim parameters. -/
def jpegIptcBranch (iptc : JVal) (m : SDMetadata) : SDMetadata :=
  let iptcCaption := jget iptc "Caption/Abstract"
  if jTruthy iptcCaption then
    let captionValue : JVal := match iptcCaption with
      | .jstr s => .jstr s
      | _ => jvalOr (jget iptcCaption "value") (jget iptcCaption "description")
    match captionValue with
    | .jstr s =>
      if s ≠ "" && jsIncludes s "Steps:" then
        parseA1111Parameters s { m with parameters := some s }
      else m
    | _ => m
  else m

/-- The EXIF tier of `parseJPEGMetadata` (everything inside its inner
`try`), returning the populated record together with the collected
fallback tag store (`null` when `ExifReader.load` itself threw). -/
def jpegExifTier (ext : Externals) (buffer : List Nat) (m : SDMetadata) :
    SDMetadata × Option (List (String × JVal)) :=
  match ext.exifLoad buffer with
  | none => (m, none)
  | some tags =>
    let exifData : List (String × JVal) := []
    let (exifData, m) :=
      match tags.exif with
      | some exifObj => scanAllExifFields jpegExifFields exifObj exifData m
      | none => (exifData, m)
    let (exifData, m) :=
      if strFalsy m.parameters then
        match tags.exif with
        | some exifObj => scanStdExifFields exifObj jpegExifFields exifData m
        | none => (exifData, m)
      else (exifData, m)
    let m :=
      if strFalsy m.parameters then
        match tags.exif with
        | some exifObj => naiSentinelBranch ext exifObj m
        | none => m
      else m
    let (exifData, m) :=
      match tags.xmp with
      | some xmp =>
        if strFalsy m.parameters then
          (recSet exifData "XMP" xmp, jpegXmpBranch ext xmp m)
        else (exifData, m)
      | none => (exifData, m)
    let (exifData, m) :=
      match tags.iptc with
      | some iptc =>
        if strFalsy m.parameters then
          (recSet exifData "IPTC" iptc, jpegIptcBranch iptc m)
        else (exifData, m)
      | none => (exifData, m)
    (m, some exifData)

/-- `parseJPEGMetadata` from `jpeg.ts`: APP segments first, then the EXIF
tier, then the binary search; success needs a non-empty record, with the
raw-tag fallback as the last resort. -/
def parseJPEGMetadata (ext : Externals) (buffer : List Nat) : ParseResult SDMetadata :=
  let metadata : SDMetadata := {}
  let appSegments := extractJpegAppSegments buffer
  let m1 :=
    match appSegments.find? (fun kv => sdTokens kv.2) with
    | some kv => parseA1111Parameters kv.2 { metadata with parameters := some kv.2 }
    | none => metadata
  let (m2, exifData) :=
    if strFalsy m1.parameters then jpegExifTier ext buffer m1
    else (m1, none)
  let m3 :=
    if strFalsy m2.parameters then
      match binarySearchForMetadata ext buffer true with
      | some foundText => parseA1111Parameters foundText { m2 with parameters := some foundText }
      | none => m2
    else m2
  if isEmptyMeta m3 then
    match exifData with
    | some ed =>
      if 0 < ed.length then
        { success := true, data := some { m3 with exifFallback := some ed } }
      else { success := false, error := some "No SD metadata found in JPEG" }
    | none => { success := false, error := some "No SD metadata found in JPEG" }
  else { success := true, data := some m3 }

/-! ## WebP metadata extraction (`webp.ts`) -/

/-- `extractWebPChunkText`: UTF-8, UTF-16LE (NUL-stripped), ASCII and
Latin-1 decodings in order, keeping the first carrying a signature
token. -/
def extractWebPChunkText (ext : Externals) (chunkData : List Nat) : String :=
  let t1 := utf8Decode chunkData
  if sdTokens t1 then t1 else
  let t2 := stripNulls (ext.utf16le chunkData)
  if sdTokens t2 then t2 else
  let t3 := asciiDecode chunkData
  if sdTokens t3 then t3 else
  let t4 := latin1Decode chunkData
  if sdTokens t4 then t4 else ""

/-- The RIFF chunk loop of `parseWebPChunks`: fourCC, little-endian size,
payload (with pad byte on odd sizes); an `EXIF` or `XMP ` chunk whose
decoded text carries a token pair yields the record immediately. -/
def webpChunkLoop (ext : Externals) (buffer : List Nat) :
    Nat → Nat → Option SDMetadata
  | 0, _ => none
  | fuel + 1, offset =>
    if offset < buffer.length - 8 then
      let chunkFourCC := utf8Decode (sliceBytes buffer offset (offset + 4))
      let offset := offset + 4
      if buffer.length < offset + 4 then none
      else
        let chunkSize := readUInt32LE buffer offset
        let offset := offset + 4
        if buffer.length < offset + chunkSize then none
        else
          let chunkData := sliceBytes buffer offset (offset + chunkSize)
          let offset := offset + chunkSize
          let offset := if chunkSize % 2 = 1 then offset + 1 else offset
          if chunkFourCC = "EXIF" || chunkFourCC = "XMP " then
            let textContent := extractWebPChunkText ext chunkData
            if textContent ≠ "" && sdTokens textContent then
              some (parseA1111Parameters textContent { parameters := some textContent })
            else webpChunkLoop ext buffer fuel offset
          else webpChunkLoop ext buffer fuel offset
    else none

/-- `parseWebPChunks` from `webp.ts`. -/
def parseWebPChunks (ext : Externals) (buffer : List Nat) : ParseResult SDMetadata :=
  if buffer.length < 12 || utf8Decode (sliceBytes buffer 0 4) ≠ "RIFF" ||
      utf8Decode (sliceBytes buffer 8 12) ≠ "WEBP" then
    { success := false, error := some "Invalid WebP file" }
  else
    match webpChunkLoop ext buffer (buffer.length + 1) 12 with
    | some md => { success := true, data := some md }
    | none => { success := false, error := some "No metadata found in WebP chunks" }

/-- The all-fields EXIF loop of `parseWebPMetadata`: like the JPEG one
but with no standard-name skip and an added object-type guard. -/
def webpScanAllFields :
    List (String × JVal) → List (String × JVal) → SDMetadata →
    List (String × JVal) × SDMetadata
  | [], exifData, m => (exifData, m)
  | (fieldName, field) :: rest, exifData, m =>
    match field with
    | .jobj _ =>
      let fieldValue := jvalOr (jget field "description")
        (jvalOr (jget field "value") (jget field "text"))
      let exifData := recSet exifData fieldName field
      match fieldValue with
      | .jstr s =>
        if s ≠ "" && sdTokens s then
          (exifData, parseA1111Parameters s { m with parameters := some s })
        else webpScanAllFields rest exifData m
      | _ => webpScanAllFields rest exifData m
    | .jarr _ =>
      let fieldValue := jvalOr (jget field "description")
        (jvalOr (jget field "value") (jget field "text"))
      let exifData := recSet exifData fieldName field
      match fieldValue with
      | .jstr s =>
        if s ≠ "" && sdTokens s then
          (exifData, parseA1111Parameters s { m with parameters := some s })
        else webpScanAllFields rest exifData m
      | _ => webpScanAllFields rest exifData m
    | _ => webpScanAllFields rest exifData m

/-- The standard-fields loop of `parseWebPMetadata` (three-way value
chain, string-typed check). -/
def webpStdFields (exifObj : List (String × JVal)) :
    List String → List (String × JVal) → SDMetadata →
    List (String × JVal) × SDMetadata
  | [], exifData, m => (exifData, m)
  | fieldName :: rest, exifData, m =>
    let field := jget (.jobj exifObj) fieldName
    if jTruthy field then
      let exifData := recSet exifData fieldName field
      let fieldValue := jvalOr (jget field "description")
        (jvalOr (jget field "value") (jget field "text"))
      match fieldValue with
      | .jstr s =>
        if s ≠ "" && sdTokens s then
          (exifData, parseA1111Parameters s { m with parameters := some s })
        else webpStdFields exifObj rest exifData m
      | _ => webpStdFields exifObj rest exifData m
    else webpStdFields exifObj rest exifData m

/-- The XMP branch of `parseWebPMetadata`: stringified search through
`extractFromXMPLikeText`, then a field-based search when nothing was
found; a stringification failure skips the whole branch. -/
def webpXmpBranch (ext : Externals) (xmp : JVal) (m : SDMetadata) : SDMetadata :=
  match ext.jsonStringify xmp with
  | some xmpStr =>
    let m :=
      if jsIncludes xmpStr "Steps:" || jsIncludes xmpStr "parameters" then
        match extractFromXMPLikeText ext xmpStr with
        | some extracted =>
          if jsIncludes extracted "Steps:" then
            parseA1111Parameters extracted { m with parameters := some extracted }
          else m
        | none => m
      else m
    if strFalsy m.parameters then
      let found := ["description", "Description", "dc:description",
          "tiff:ImageDescription"].findSome? fun xmpField =>
        let xmpDesc := jget xmp xmpField
        if jTruthy xmpDesc then
          let descValue : JVal := match xmpDesc with
            | .jstr s => .jstr s
            | _ => jvalOr (jget xmpDesc "value") (jget xmpDesc "description")
          match descValue with
          | .jstr s => if s ≠ "" && jsIncludes s "Steps:" then some s else none
          | _ => none
        else none
      match found with
      | some descValue => parseA1111Parameters descValue { m with parameters := some descValue }
      | none => m
    else m
  | none => m

/-- The WebP standard EXIF field names. -/
def webpExifFields : List String :=
  ["UserComment", "ImageDescription", "ImageComment", "XPComment", "Software"]

/-- The EXIF tier of `parseWebPMetadata` (its inner `try`). -/
def webpExifTier (ext : Externals) (buffer : List Nat) (m : SDMetadata) :
    SDMetadata × Option (List (String × JVal)) :=
  match ext.exifLoad buffer with
  | none => (m, none)
  | some tags =>
    let exifData : List (String × JVal) := []
    let (exifData, m) :=
      if strFalsy m.parameters then
        match tags.exif with
        | some exifObj => webpScanAllFields exifObj exifData m
        | none => (exifData, m)
      else (exifData, m)
    let (exifData, m) :=
      if strFalsy m.parameters then
        match tags.exif with
        | some exifObj => webpStdFields exifObj webpExifFields exifData m
        | none => (exifData, m)
      else (exifData, m)
    let m :=
      if strFalsy m.parameters then
        match tags.exif with
        | some exifObj => naiSentinelBranch ext exifObj m
        | none => m
      else m
    let (exifData, m) :=
      match tags.xmp with
      | some xmp =>
        if strFalsy m.parameters then
          (recSet exifData "XMP" xmp, webpXmpBranch ext xmp m)
        else (exifData, m)
      | none => (exifData, m)
    (m, some exifData)

/-- `parseWebPMetadata` from `webp.ts`.  The last-resort binary search
destructures `binarySearchForMetadata` out of `require('./jpeg')`, but
`jpeg.ts` does not export that function, so the call throws a `TypeError`
that the outer catch turns into a failure result whenever that tier is
reached. -/
def parseWebPMetadata (ext : Externals) (buffer : List Nat) : ParseResult SDMetadata :=
  let metadata : SDMetadata := {}
  let (m1, exifData) := webpExifTier ext buffer metadata
  let m2 :=
    if strFalsy m1.parameters then
      let chunkResult := parseWebPChunks ext buffer
      if chunkResult.success then
        match chunkResult.data with
        | some d => mergeMeta m1 d
        | none => m1
      else m1
    else m1
  if strFalsy m2.parameters then
    { success := false, error := some "binarySearchForMetadata is not a function" }
  else
    if isEmptyMeta m2 then
      match exifData with
      | some ed =>
        if 0 < ed.length then
          { success := true, data := some { m2 with exifFallback := some ed } }
        else { success := false, error := some "No SD metadata found in WebP" }
      | none => { success := false, error := some "No SD metadata found in WebP" }
    else { success := true, data := some m2 }

/-! ## Format detection and the orchestrator (`utils.ts`, `extractor.ts`) -/

/-- The three container kinds. -/
inductive ImageFormat where
  | png : ImageFormat
  | jpeg : ImageFormat
  | webp : ImageFormat
deriving Repr, DecidableEq

/-- `detectImageFormat` from `utils.ts`: pure signature sniffing on the
first 12 bytes; shorter buffers are unknown. -/
def detectImageFormat (buffer : List Nat) : Option ImageFormat :=
  if buffer.length < 12 then none
  else if byteAt buffer 0 = 137 && byteAt buffer 1 = 80 &&
      byteAt buffer 2 = 78 && byteAt buffer 3 = 71 then some .png
  else if byteAt buffer 0 = 255 && byteAt buffer 1 = 216 &&
      byteAt buffer 2 = 255 then some .jpeg
  else if byteAt buffer 0 = 82 && byteAt buffer 1 = 73 &&
      byteAt buffer 2 = 70 && byteAt buffer 3 = 70 &&
      byteAt buffer 8 = 87 && byteAt buffer 9 = 69 &&
      byteAt buffer 10 = 66 && byteAt buffer 11 = 80 then some .webp
  else none

/-- `extractMetadata` from `extractor.ts`: empty-buffer guard, format
detection, then dispatch to the format-specific parser. -/
def extractMetadata (ext : Externals) (buffer : List Nat) : ParseResult SDMetadata :=
  if buffer.length = 0 then { success := false, error := some "Empty buffer" }
  else
    match detectImageFormat buffer with
    | none => { success := false, error := some "Unsupported image format" }
    | some .png => parsePNGMetadata ext buffer
    | some .jpeg => parseJPEGMetadata ext buffer
    | some .webp => parseWebPMetadata ext buffer

/-! ## Derived specifications and concrete inputs used by the theorems -/

/-- The six canonical keys populated by `parseParameterLine`. -/
inductive ParamField where
  | steps : ParamField
  | sampler : ParamField
  | cfgScale : ParamField
  | seed : ParamField
  | size : ParamField
  | model : ParamField
deriving DecidableEq, Repr

/-- Overwrite one canonical field of the record. -/
def updField (m : SDMetadata) (f : ParamField) (v : String) : SDMetadata :=
  match f with
  | .steps => { m with steps := some v }
  | .sampler => { m with sampler := some v }
  | .cfgScale => { m with cfgScale := some v }
  | .seed => { m with seed := some v }
  | .size => { m with size := some v }
  | .model => { m with model := some v }

/-- Read one canonical field of the record. -/
def getField (m : SDMetadata) : ParamField → Option String
  | .steps => m.steps
  | .sampler => m.sampler
  | .cfgScale => m.cfgScale
  | .seed => m.seed
  | .size => m.size
  | .model => m.model

/-- Which canonical field (and value) a single `key: value` pair hits,
following the if-chain of `parseParameterLine` exactly. -/
def paramHit (param : String) : Option (ParamField × String) :=
  match splitAtFirst ':' param.data with
  | none => none
  | some (k, v) =>
    let key := jsTrim ⟨k⟩
    let value := jsTrim ⟨v⟩
    if key = "" || value = "" then none
    else
      let lowerKey := jsToLower key
      if jsIncludes lowerKey "steps" then some (.steps, value)
      else if jsIncludes lowerKey "sampler" then some (.sampler, value)
      else if jsIncludes lowerKey "cfg" && jsIncludes lowerKey "scale" then
        some (.cfgScale, value)
      else if jsIncludes lowerKey "seed" then some (.seed, value)
      else if jsIncludes lowerKey "size" then some (.size, value)
      else if jsIncludes lowerKey "model" && !jsIncludes lowerKey "hash" then
        some (.model, value)
      else none

/-- The value of the last pair in the list hitting canonical key `f`. -/
def lastHit (f : ParamField) : List String → Option String
  | [] => none
  | p :: ps =>
    match lastHit f ps with
    | some v => some v
    | none =>
      match paramHit p with
      | some fv => if fv.1 = f then some fv.2 else none
      | none => none

/-- The first non-blank trimmed line is a parameter marker
(`Negative prompt:` / `Steps:`). -/
def linesMarkerFirst (lines : List String) : Bool :=
  match ((lines.map jsTrim).filter fun t => t ≠ "").head? with
  | some t => jsStartsWith t "Negative prompt:" || jsStartsWith t "Steps:"
  | none => false

/-- The input string's first non-blank line is a parameter marker. -/
def firstNonBlankMarker (s : String) : Bool := linesMarkerFirst (jsSplit s '\n')

/-- A 32-bit big-endian chunk length. -/
def natTo4BE (n : Nat) : List Nat :=
  [n / 16777216 % 256, n / 65536 % 256, n / 256 % 256, n % 256]

/-- The A1111 parameter text of the concrete end-to-end scenario. -/
def c7Text : String :=
  "best quality, 1girl\nNegative prompt: lowres\nSteps: 20, Sampler: Euler a, CFG scale: 7, Seed: 42, Size: 512x768, Model: foo"

/-- `tEXt` payload: keyword `parameters`, NUL, the parameter text. -/
def c7ChunkData : List Nat := strBytes "parameters" ++ [0] ++ strBytes c7Text

/-- A minimal PNG: signature, one `tEXt` chunk, `IEND`. -/
def c7Buffer : List Nat :=
  [137, 80, 78, 71, 13, 10, 26, 10] ++ natTo4BE c7ChunkData.length ++
  strBytes "tEXt" ++ c7ChunkData ++ [0, 0, 0, 0] ++
  [0, 0, 0, 0] ++ strBytes "IEND" ++ [174, 66, 96, 130]

/-- A well-formed PNG container with no text chunks at all: signature and
a bare `IEND` chunk. -/
def emptyPngBuffer : List Nat :=
  [137, 80, 78, 71, 13, 10, 26, 10] ++ [0, 0, 0, 0] ++ strBytes "IEND" ++
  [174, 66, 96, 130]

/-- A 120×1 raster whose alpha LSBs are all zero: its first 120 bits
spell fifteen NUL bytes, not the magic. -/
def allZeroPng : PNGImage := ⟨120, 1, List.replicate 480 0⟩

/-- The magic string as a row-major bit stream, most significant bit of
each byte first. -/
def magicBits : List Nat :=
  stealthMagic.data.flatMap fun c => (List.range 8).map fun i => c.toNat / 2 ^ (7 - i) % 2

/-- A 152×1 raster whose alpha LSBs spell the magic followed by an
all-zero length field: the envelope declares `bitLength = 0`. -/
def zeroLenStealthPng : PNGImage :=
  ⟨152, 1, (List.range 152).flatMap fun i => [0, 0, 0, magicBits.getD i 0]⟩

/-- Negative-role text node of the three-node witness graph (appears
first in the node array). -/
def clipNodeB : ComfyUINode :=
  { id := some 2, type := "CLIPTextEncode", widgets_values := some [.jstr "bad hands"] }

/-- Positive-role text node of the three-node witness graph (appears
second in the node array). -/
def clipNodeA : ComfyUINode :=
  { id := some 1, type := "CLIPTextEncode", widgets_values := some [.jstr "1girl, masterpiece"] }

/-- Sampler node of the witness graph, wired positive→A and negative→B
through the link table. -/
def samplerNodeK : ComfyUINode :=
  { id := some 3, type := "KSampler",
    widgets_values := some [.jnum 42, .jnum 20, .jnum 7, .jstr "euler"],
    inputs := some [{ name := some "positive", link := some 10 },
                    { name := some "negative", link := some 11 }] }

/-- The three-node witness graph: B (negative role) precedes A (positive
role) in file order, and an explicit link table wires the sampler to
them. -/
def linkedGraph : ComfyUIWorkflow :=
  { nodes := some [clipNodeB, clipNodeA, samplerNodeK],
    links := some [[.jnum 10, .jnum 1, .jnum 0, .jnum 3, .jnum 1, .jstr "CONDITIONING"],
                   [.jnum 11, .jnum 2, .jnum 0, .jnum 3, .jnum 2, .jstr "CONDITIONING"]] }

/-! ## Theorems -/

set_option maxRecDepth 4096

/-- C8: the full pipeline is a deterministic, stateless function of the
input byte buffer (given fixed external collaborators): two runs on the
same buffer produce identical `ParseResult` values. -/
theorem extractMetadata_deterministic (ext : Externals) (buffer : List Nat)
    (r₁ r₂ : ParseResult SDMetadata)
    (h₁ : r₁ = extractMetadata ext buffer) (h₂ : r₂ = extractMetadata ext buffer) :
    r₁ = r₂ :=
  h₁.trans h₂.symm

/-- Witness for C8 at a concrete input. -/
theorem extractMetadata_deterministic_witness :
    extractMetadata inertExternals emptyPngBuffer =
      extractMetadata inertExternals emptyPngBuffer :=
  extractMetadata_deterministic inertExternals emptyPngBuffer _ _ rfl rfl

/-- C10: a zero-length buffer makes `extractMetadata` return the
`Empty buffer` failure before format detection or any format-specific
parser can run (the guard is the first statement of the function). -/
theorem extractMetadata_empty_buffer (ext : Externals) (buffer : List Nat)
    (h : buffer.length = 0) :
    extractMetadata ext buffer =
      { success := false, data := none, error := some "Empty buffer" } := by
  unfold extractMetadata
  rw [if_pos h]

/-- Witness for C10 at the empty buffer. -/
theorem extractMetadata_empty_buffer_witness :
    ([] : List Nat).length = 0 ∧
      extractMetadata inertExternals [] =
        { success := false, data := none, error := some "Empty buffer" } :=
  ⟨rfl, extractMetadata_empty_buffer inertExternals [] rfl⟩

/-- C1 (failing input): on a well-formed PNG with no metadata at all the
pipeline returns `success: true` with a record carrying no field — the
"empty success" the specification rules out. -/
theorem png_empty_success_bug :
    extractMetadata inertExternals emptyPngBuffer =
      { success := true, data := some ({} : SDMetadata), error := none } ∧
    isEmptyMeta ({} : SDMetadata) = true :=
  ⟨rfl, rfl⟩

/-- C7: on a minimal structured container holding one plain `parameters`
text chunk with the concrete A1111 string, extraction succeeds with every
expected field and the verbatim chunk text. -/
theorem png_a1111_concrete_scenario :
    extractMetadata inertExternals c7Buffer =
      { success := true,
        data := some
          { prompt := some "best quality, 1girl",
            negativePrompt := some "lowres",
            steps := some "20",
            sampler := some "Euler a",
            cfgScale := some "7",
            seed := some "42",
            size := some "512x768",
            model := some "foo",
            parameters := some c7Text },
        error := none } :=
  rfl

/-- The bit stream of a raster has one entry per pixel. -/
theorem bitsOf_length (png : PNGImage) : (bitsOf png).length = png.width * png.height := by
  simp [bitsOf]

/-- With at least 120 bits available, the 15 magic bytes read by the
bit reader are total reads. -/
theorem readNBytesO_magic (png : PNGImage) (h : ¬ png.width * png.height < 15 * 8) :
    readNBytesO (bitsOf png) 0 15 =
      some ((List.range 15).map fun j => readByteBits (bitsOf png) (0 + 8 * j)) := by
  unfold readNBytesO
  rw [if_pos]
  rw [bitsOf_length]
  omega

/-- The decoded magic bytes spell `stealthMagicString`. -/
theorem magicBytes_as_string (png : PNGImage) :
    (⟨((List.range 15).map fun j => readByteBits (bitsOf png) (0 + 8 * j)).map
        fun b => Char.ofNat b⟩ : String) = stealthMagicString png := by
  unfold stealthMagicString
  rw [List.map_map]
  rfl

/-- C5: when the first 120 alpha LSBs do not spell the 15-byte magic
string, the steganographic decoder returns "not present" (`none`); the
decoder is a total function, so no exception crosses its boundary. -/
theorem stealth_magic_mismatch (ext : Externals) (png : PNGImage)
    (h : stealthMagicString png ≠ stealthMagic) :
    extractStealthPngMetadata ext png = none := by
  unfold extractStealthPngMetadata
  by_cases h0 : png.data.length = 0
  · rw [if_pos h0]
  · rw [if_neg h0]
    by_cases h1 : png.width * png.height < 15 * 8
    · rw [if_pos h1]
    · rw [if_neg h1]
      simp only [readNBytesO_magic png h1, magicBytes_as_string png]
      rw [if_pos h]

/-- Witness for C5: an all-zero raster spells fifteen NUL bytes. -/
theorem stealth_magic_mismatch_witness :
    stealthMagicString allZeroPng ≠ stealthMagic ∧
      extractStealthPngMetadata inertExternals allZeroPng = none :=
  ⟨by decide, stealth_magic_mismatch inertExternals allZeroPng (by decide)⟩

/-- With fewer than 152 bits, the 32-bit length read fails (and is caught). -/
theorem readInt32O_short (png : PNGImage) (h : png.width * png.height < 152) :
    readInt32O (bitsOf png) 120 = none := by
  unfold readInt32O readNBytesO
  rw [if_neg]
  · rfl
  · rw [bitsOf_length]; omega

/-- With at least 152 bits, the 32-bit length read returns the declared
length of the envelope. -/
theorem readInt32O_value (png : PNGImage) (h : ¬ png.width * png.height < 152) :
    readInt32O (bitsOf png) 120 = some (stealthDeclaredLength png) := by
  unfold readInt32O readNBytesO stealthDeclaredLength
  rw [if_pos]
  · norm_num [List.range_succ]
  · rw [bitsOf_length]; omega

/-- C6: when the envelope's declared bit length is not strictly positive
or exceeds the bits remaining after the magic and the length header, the
decoder aborts with "not present" (`none`) instead of an error. -/
theorem stealth_invalid_length (ext : Externals) (png : PNGImage)
    (hm : stealthMagicString png = stealthMagic)
    (hl : stealthDeclaredLength png ≤ 0 ∨
      stealthDeclaredLength png > ((png.width * png.height : Nat) : Int) - 120 - 32) :
    extractStealthPngMetadata ext png = none := by
  unfold extractStealthPngMetadata
  by_cases h0 : png.data.length = 0
  · rw [if_pos h0]
  · rw [if_neg h0]
    by_cases h1 : png.width * png.height < 15 * 8
    · rw [if_pos h1]
    · rw [if_neg h1]
      simp only [readNBytesO_magic png h1, magicBytes_as_string png]
      rw [if_neg (by simp [hm])]
      by_cases h2 : png.width * png.height < 152
      · simp only [readInt32O_short png h2]
      · simp only [readInt32O_value png h2]
        rw [if_pos hl]

/-- Witness for C6: a raster spelling the magic followed by an all-zero
length field declares `bitLength = 0`, which is rejected. -/
theorem stealth_invalid_length_witness :
    stealthMagicString zeroLenStealthPng = stealthMagic ∧
      extractStealthPngMetadata inertExternals zeroLenStealthPng = none :=
  ⟨by decide,
   stealth_invalid_length inertExternals zeroLenStealthPng (by decide)
     (Or.inl (by decide))⟩

/-- `processParam` is exactly: update the field hit by the pair, if any. -/
theorem processParam_spec (m : SDMetadata) (p : String) :
    processParam m p =
      match paramHit p with
      | none => m
      | some fv => updField m fv.1 fv.2 := by
  unfold processParam paramHit
  cases h : splitAtFirst ':' p.data with
  | none => rfl
  | some kv =>
    simp only []
    split_ifs <;> rfl

/-- Reading a field after `updField` picks the written value exactly for
the written field. -/
theorem getField_updField (m : SDMetadata) (f' : ParamField) (v : String)
    (f : ParamField) :
    getField (updField m f' v) f = if f' = f then some v else getField m f := by
  cases f' <;> cases f <;> simp [updField, getField]

/-- The parameter fold leaves a canonical field at the value of the last
pair hitting it, or untouched when no pair hits it. -/
theorem getField_foldl (l : List String) (m : SDMetadata) (f : ParamField) :
    getField (l.foldl processParam m) f =
      match lastHit f l with
      | some v => some v
      | none => getField m f := by
  induction l generalizing m with
  | nil => rfl
  | cons p ps ih =>
    rw [List.foldl_cons, ih]
    cases hps : lastHit f ps with
    | some v => simp [lastHit, hps]
    | none =>
      simp only [lastHit, hps]
      rw [processParam_spec]
      cases hp : paramHit p with
      | none => rfl
      | some fv =>
        simp only []
        rw [getField_updField]
        by_cases hf : fv.1 = f
        · simp [hf]
        · simp [hf]

/-- C3 (amended): when the same canonical key matches several `key: value`
pairs of one parameter line, the value of the LAST matching pair is kept;
earlier duplicates are overwritten (and a key hit by no pair keeps its
previous value). -/
theorem parameterLine_last_duplicate_wins (line : String) (m : SDMetadata)
    (f : ParamField) :
    getField (parseParameterLine line m) f =
      match lastHit f (paramsOf line) with
      | some v => some v
      | none => getField m f := by
  unfold parseParameterLine
  exact getField_foldl _ _ _

/-- C3 (counterexample): on `"Steps: 20, Steps: 30"` the parser keeps the
later duplicate (`"30"`), not the first match (`"20"`) that the claim
requires. -/
theorem a1111_duplicate_key_counterexample :
    (parseA1111Parameters "Steps: 20, Steps: 30" {}).steps = some "30" ∧
    (parseA1111Parameters "Steps: 20, Steps: 30" {}).steps ≠ some "20" :=
  ⟨rfl, by decide⟩

/-- A single `key: value` pair never writes the `prompt` field. -/
theorem processParam_prompt (m : SDMetadata) (p : String) :
    (processParam m p).prompt = m.prompt := by
  rw [processParam_spec]
  cases hp : paramHit p with
  | none => rfl
  | some fv =>
    obtain ⟨f, v⟩ := fv
    cases f <;> rfl

/-- A parameter line never writes the `prompt` field. -/
theorem parseParameterLine_prompt (l : String) (m : SDMetadata) :
    (parseParameterLine l m).prompt = m.prompt := by
  unfold parseParameterLine
  induction paramsOf l generalizing m with
  | nil => rfl
  | cons p ps ih => rw [List.foldl_cons, ih, processParam_prompt]

/-- The parameter loop of `parseA1111Parameters` never writes `prompt`. -/
theorem processA1111Line_prompt (m : SDMetadata) (l : String) :
    (processA1111Line m l).prompt = m.prompt := by
  unfold processA1111Line
  dsimp only
  split_ifs with h1 h2
  · rfl
  · rfl
  · exact parseParameterLine_prompt _ _

/-- Folding the parameter loop never writes `prompt`. -/
theorem foldl_processA1111Line_prompt (ls : List String) (m : SDMetadata) :
    (ls.foldl processA1111Line m).prompt = m.prompt := by
  induction ls generalizing m with
  | nil => rfl
  | cons l rest ih => rw [List.foldl_cons, ih, processA1111Line_prompt]

/-- A JS split never returns an empty piece list. -/
theorem splitChars_ne_nil (sep : Char) (l : List Char) : splitChars sep l ≠ [] := by
  cases l with
  | nil => simp [splitChars]
  | cons c cs =>
    unfold splitChars
    split_ifs
    · simp
    · cases splitChars sep cs <;> simp

/-- `jsSplit` never returns the empty list. -/
theorem jsSplit_ne_nil (s : String) (sep : Char) : jsSplit s sep ≠ [] := by
  unfold jsSplit
  intro h
  exact splitChars_ne_nil sep s.data (List.map_eq_nil_iff.mp h)

/-- When the first non-blank trimmed line is a parameter marker, the
prompt-collection loop collects nothing. -/
theorem collectPrompt_nil_of_marker (lines : List String)
    (h : linesMarkerFirst lines = true) : collectPrompt lines = [] := by
  induction lines with
  | nil => simp [linesMarkerFirst] at h
  | cons l rest ih =>
    by_cases ht : jsTrim l = ""
    · have hmark : isMarkerLine l = false := by
        unfold isMarkerLine
        rw [ht]
        decide
      have h' : linesMarkerFirst rest = true := by
        unfold linesMarkerFirst at h ⊢
        simpa [ht] using h
      unfold collectPrompt
      rw [hmark]
      simpa [ht] using ih h'
    · have hmark : isMarkerLine l = true := by
        unfold linesMarkerFirst at h
        unfold isMarkerLine
        simpa [ht] using h
      unfold collectPrompt
      rw [hmark]
      simp

/-- C9: for every non-empty input string the A1111 parser assigns the
`prompt` field unconditionally — its final value is a function of the
input string alone (so any previous `prompt` is overwritten), and it is
the empty string whenever the input's first non-blank line already starts
with `Negative prompt:` or `Steps:`. -/
theorem a1111_prompt_unconditional (s : String) (m m' : SDMetadata) (h : s ≠ "") :
    (parseA1111Parameters s m).prompt =
      some (jsTrim (joinSep "\n" (collectPrompt (jsSplit s '\n')))) ∧
    (parseA1111Parameters s m).prompt = (parseA1111Parameters s m').prompt ∧
    (firstNonBlankMarker s = true → (parseA1111Parameters s m).prompt = some "") := by
  have key : ∀ mm : SDMetadata, (parseA1111Parameters s mm).prompt =
      some (jsTrim (joinSep "\n" (collectPrompt (jsSplit s '\n')))) := by
    intro mm
    unfold parseA1111Parameters
    rw [if_neg h, if_neg (jsSplit_ne_nil s '\n')]
    simp only [foldl_processA1111Line_prompt]
  refine ⟨key m, (key m).trans (key m').symm, fun hm => ?_⟩
  rw [key m, collectPrompt_nil_of_marker _ hm]
  rfl

/-- Witness for C9: a one-line parameter string overwrites a previously
set prompt with the empty string. -/
theorem a1111_prompt_unconditional_witness :
    ("Steps: 7" : String) ≠ "" ∧
    ((parseA1111Parameters "Steps: 7" { prompt := some "old" }).prompt =
      some (jsTrim (joinSep "\n" (collectPrompt (jsSplit "Steps: 7" '\n')))) ∧
    (parseA1111Parameters "Steps: 7" { prompt := some "old" }).prompt =
      (parseA1111Parameters "Steps: 7" {}).prompt ∧
    (firstNonBlankMarker "Steps: 7" = true →
      (parseA1111Parameters "Steps: 7" { prompt := some "old" }).prompt = some "")) :=
  ⟨by decide,
   a1111_prompt_unconditional "Steps: 7" { prompt := some "old" } {} (by decide)⟩

/-- The KSampler widget reads never write `prompt`. -/
theorem ksWidgets_prompt (vs : List JVal) (m : SDMetadata) :
    (ksWidgets vs m).prompt = m.prompt := by
  unfold ksWidgets
  cases vs.get? 0 <;> cases vs.get? 1 <;> cases vs.get? 2 <;> cases vs.get? 3 <;> rfl

/-- The KSampler widget reads never write `negativePrompt`. -/
theorem ksWidgets_negative (vs : List JVal) (m : SDMetadata) :
    (ksWidgets vs m).negativePrompt = m.negativePrompt := by
  unfold ksWidgets
  cases vs.get? 0 <;> cases vs.get? 1 <;> cases vs.get? 2 <;> cases vs.get? 3 <;> rfl

/-- The `SamplerCustom` widget reads never write `prompt`. -/
theorem scWidgets_prompt (vs : List JVal) (m : SDMetadata) :
    (scWidgets vs m).prompt = m.prompt := by
  unfold scWidgets
  cases vs.get? 0 <;> cases vs.get? 1 <;> rfl

/-- The `SamplerCustom` widget reads never write `negativePrompt`. -/
theorem scWidgets_negative (vs : List JVal) (m : SDMetadata) :
    (scWidgets vs m).negativePrompt = m.negativePrompt := by
  unfold scWidgets
  cases vs.get? 0 <;> cases vs.get? 1 <;> rfl

/-- The KSampler widget step never writes `prompt`. -/
theorem ksStep_prompt (o : Option ComfyUINode) (m : SDMetadata) :
    (ksStep o m).prompt = m.prompt := by
  unfold ksStep
  rcases o with _ | k
  · rfl
  · rcases hk : k.widgets_values with _ | vs
    · simp only [hk]
    · simp only [hk]
      exact ksWidgets_prompt vs m

/-- The KSampler widget step never writes `negativePrompt`. -/
theorem ksStep_negative (o : Option ComfyUINode) (m : SDMetadata) :
    (ksStep o m).negativePrompt = m.negativePrompt := by
  unfold ksStep
  rcases o with _ | k
  · rfl
  · rcases hk : k.widgets_values with _ | vs
    · simp only [hk]
    · simp only [hk]
      exact ksWidgets_negative vs m

/-- The `SamplerCustom` widget step never writes `prompt`. -/
theorem scStep_prompt (o : Option ComfyUINode) (m : SDMetadata) :
    (scStep o m).prompt = m.prompt := by
  unfold scStep
  rcases o with _ | k
  · rfl
  · rcases hk : k.widgets_values with _ | vs
    · simp only [hk]
    · simp only [hk]
      exact scWidgets_prompt vs m

/-- The `SamplerCustom` widget step never writes `negativePrompt`. -/
theorem scStep_negative (o : Option ComfyUINode) (m : SDMetadata) :
    (scStep o m).negativePrompt = m.negativePrompt := by
  unfold scStep
  rcases o with _ | k
  · rfl
  · rcases hk : k.widgets_values with _ | vs
    · simp only [hk]
    · simp only [hk]
      exact scWidgets_negative vs m

/-- The auxiliary node scan never writes `prompt`. -/
theorem additionalNode_prompt (m : SDMetadata) (n : ComfyUINode) :
    (additionalNode m n).prompt = m.prompt := by
  unfold additionalNode
  dsimp only
  split_ifs <;> rfl

/-- The auxiliary node scan never writes `negativePrompt`. -/
theorem additionalNode_negative (m : SDMetadata) (n : ComfyUINode) :
    (additionalNode m n).negativePrompt = m.negativePrompt := by
  unfold additionalNode
  dsimp only
  split_ifs <;> rfl

/-- `extractComfyUIAdditionalData` never writes `prompt`. -/
theorem addData_prompt (ns : List ComfyUINode) (m : SDMetadata) :
    (extractComfyUIAdditionalData ns m).prompt = m.prompt := by
  unfold extractComfyUIAdditionalData
  induction ns generalizing m with
  | nil => rfl
  | cons n rest ih => rw [List.foldl_cons, ih, additionalNode_prompt]

/-- `extractComfyUIAdditionalData` never writes `negativePrompt`. -/
theorem addData_negative (ns : List ComfyUINode) (m : SDMetadata) :
    (extractComfyUIAdditionalData ns m).negativePrompt = m.negativePrompt := by
  unfold extractComfyUIAdditionalData
  induction ns generalizing m with
  | nil => rfl
  | cons n rest ih => rw [List.foldl_cons, ih, additionalNode_negative]

/-- C2: in a node-array graph whose (first) sampler node declares
`positive` and `negative` named inputs whose link ids resolve through the
link table to source nodes with truthy first widget values, the parser
takes `prompt` from the link-traced positive source and `negativePrompt`
from the link-traced negative source — regardless of where those nodes
sit in the node array, so link tracing overrides the positional
fallback. -/
theorem comfy_link_tracing_overrides_order
    (wf : ComfyUIWorkflow) (m : SDMetadata) (nodes : List ComfyUINode)
    (k : ComfyUINode) (ins : List NodeInput) (pid nid : Int)
    (A B : ComfyUINode) (a b : JVal) (ar br : List JVal)
    (h1 : wf.nodes = some nodes)
    (h2 : (scanSamplers none nodes).1 = some k)
    (h3 : k.inputs = some ins)
    (h4 : traceInputRoles (linkMapOf wf) ins = (some pid, some nid))
    (h5 : nodeByIdOf nodes pid = some A)
    (h6 : nodeByIdOf nodes nid = some B)
    (h7 : A.widgets_values = some (a :: ar)) (h7t : jTruthy a = true)
    (h8 : B.widgets_values = some (b :: br)) (h8t : jTruthy b = true) :
    (parseComfyUINodeFormat wf m).prompt = some (jvalToString a) ∧
    (parseComfyUINodeFormat wf m).negativePrompt = some (jvalToString b) := by
  unfold parseComfyUINodeFormat
  rw [h1]
  dsimp only
  rw [h2]
  dsimp only
  rw [h3]
  dsimp only
  rw [h4]
  dsimp only
  simp only [Option.some_bind]
  simp only [h5, h6, Option.some_orElse]
  simp only [h7, h8, h7t, h8t, if_true]
  constructor
  · rw [addData_prompt, scStep_prompt, ksStep_prompt]
  · rw [addData_negative, scStep_negative, ksStep_negative]

/-- Witness for C2: the three-node graph in which the negative-role node
precedes the positive-role node in the array. -/
theorem comfy_link_tracing_witness :
    (parseComfyUINodeFormat linkedGraph {}).prompt = some "1girl, masterpiece" ∧
    (parseComfyUINodeFormat linkedGraph {}).negativePrompt = some "bad hands" :=
  comfy_link_tracing_overrides_order linkedGraph {}
    [clipNodeB, clipNodeA, samplerNodeK] samplerNodeK
    [{ name := some "positive", link := some 10 },
     { name := some "negative", link := some 11 }]
    1 2 clipNodeA clipNodeB (.jstr "1girl, masterpiece") (.jstr "bad hands") [] []
    rfl rfl rfl rfl rfl rfl rfl rfl rfl rfl

/-- Dropping past an appended block. -/
theorem drop_append_len {α : Type} (l r : List α) (i : Nat) :
    (l ++ r).drop (l.length + i) = r.drop i := by
  induction l with
  | nil => simp
  | cons x xs ih =>
    have h : (x :: xs).length + i = (xs.length + i) + 1 := by
      simp [List.length_cons]
      omega
    rw [h]
    simpa using ih

/-- Reading past an appended block. -/
theorem getElemOpt_append_len {α : Type} (l r : List α) (i : Nat) :
    (l ++ r).get? (l.length + i) = r.get? i := by
  induction l with
  | nil => simp
  | cons x xs ih =>
    have h : (x :: xs).length + i = (xs.length + i) + 1 := by
      simp [List.length_cons]
      omega
    rw [h]
    simpa using ih

/-- Taking exactly an appended block. -/
theorem take_append_len {α : Type} (l r : List α) : (l ++ r).take l.length = l := by
  induction l with
  | nil => rfl
  | cons x xs ih => simpa using ih

/-- The first NUL of `keyword ++ NUL ++ rest` sits right after the
keyword when the keyword itself is NUL-free. -/
theorem indexOfByte_append_zero (kw r : List Nat) (h : (0 : Nat) ∉ kw) :
    indexOfByte (kw ++ 0 :: r) 0 = some kw.length := by
  induction kw with
  | nil => simp [indexOfByte]
  | cons x xs ih =>
    have hx : x ≠ 0 := fun e => h (by simp [e])
    have hxs : (0 : Nat) ∉ xs := fun hm => h (List.mem_cons_of_mem _ hm)
    show (if x = 0 then some 0
      else (indexOfByte (xs ++ 0 :: r) 0).map (· + 1)) = some (x :: xs).length
    rw [if_neg hx, ih hxs]
    rfl

/-- Assigning into the empty keyword→text object yields a singleton. -/
theorem recSet_nil {α : Type} (k : String) (v : α) : recSet [] k v = [(k, v)] := rfl

/-- C4: a compressed-text (zTXt) chunk and an internationalized (iTXt)
chunk with compression flag 1 and method 0, carrying the same logical
text each in its own compressed form, decode to identical keyword→text
maps — in particular the same `text` value for the keyword. -/
theorem text_chunk_compression_equivalence
    (ext : Externals) (kw lang trans czl cgz t : List Nat)
    (hkw : (0 : Nat) ∉ kw) (hlang : (0 : Nat) ∉ lang) (htrans : (0 : Nat) ∉ trans)
    (hz : ext.inflate czl = some t) (hg : ext.gunzip cgz = some t) :
    parseCompressedTextChunk ext (kw ++ 0 :: 0 :: czl) [] =
      [(latin1Decode kw, utf8Decode t)] ∧
    parseInternationalTextChunk ext
      (kw ++ 0 :: 1 :: 0 :: (lang ++ 0 :: (trans ++ 0 :: cgz))) [] =
      [(latin1Decode kw, utf8Decode t)] := by
  constructor
  · unfold parseCompressedTextChunk
    rw [indexOfByte_append_zero kw _ hkw]
    have hget : (kw ++ 0 :: 0 :: czl).get? (kw.length + 1) = some 0 :=
      getElemOpt_append_len kw _ 1
    have hdrop : (kw ++ 0 :: 0 :: czl).drop (kw.length + 2) = czl :=
      drop_append_len kw _ 2
    simp only [take_append_len, hget, hdrop, hz, if_pos, recSet_nil]
  · unfold parseInternationalTextChunk
    rw [indexOfByte_append_zero kw _ hkw]
    dsimp only
    have hflag : (kw ++ 0 :: 1 :: 0 :: (lang ++ 0 :: (trans ++ 0 :: cgz))).get?
        (kw.length + 1) = some 1 := getElemOpt_append_len kw _ 1
    have hmeth : (kw ++ 0 :: 1 :: 0 :: (lang ++ 0 :: (trans ++ 0 :: cgz))).get?
        (kw.length + 2) = some 0 := getElemOpt_append_len kw _ 2
    have hdrop3 : (kw ++ 0 :: 1 :: 0 :: (lang ++ 0 :: (trans ++ 0 :: cgz))).drop
        (kw.length + 3) = lang ++ 0 :: (trans ++ 0 :: cgz) := drop_append_len kw _ 3
    have hlang0 : indexOfByte (lang ++ 0 :: (trans ++ 0 :: cgz)) 0 = some lang.length :=
      indexOfByte_append_zero lang _ hlang
    have hfrom1 : indexOfByteFrom (kw ++ 0 :: 1 :: 0 :: (lang ++ 0 :: (trans ++ 0 :: cgz)))
        0 (kw.length + 3) = some (lang.length + (kw.length + 3)) := by
      unfold indexOfByteFrom
      rw [hdrop3, hlang0]
      rfl
    have hdropLang : (kw ++ 0 :: 1 :: 0 :: (lang ++ 0 :: (trans ++ 0 :: cgz))).drop
        (lang.length + (kw.length + 3) + 1) = trans ++ 0 :: cgz := by
      have e : lang.length + (kw.length + 3) + 1 = kw.length + ((lang.length + 1) + 3) := by
        omega
      rw [e, drop_append_len]
      show (lang ++ 0 :: (trans ++ 0 :: cgz)).drop (lang.length + 1) = _
      rw [drop_append_len]
      rfl
    have htrans0 : indexOfByte (trans ++ 0 :: cgz) 0 = some trans.length :=
      indexOfByte_append_zero trans _ htrans
    have hfrom2 : indexOfByteFrom (kw ++ 0 :: 1 :: 0 :: (lang ++ 0 :: (trans ++ 0 :: cgz)))
        0 (lang.length + (kw.length + 3) + 1) =
        some (trans.length + (lang.length + (kw.length + 3) + 1)) := by
      unfold indexOfByteFrom
      rw [hdropLang, htrans0]
      rfl
    have hdropAll : (kw ++ 0 :: 1 :: 0 :: (lang ++ 0 :: (trans ++ 0 :: cgz))).drop
        (trans.length + (lang.length + (kw.length + 3) + 1) + 1) = cgz := by
      have e : trans.length + (lang.length + (kw.length + 3) + 1) + 1 =
          kw.length + ((lang.length + ((trans.length + 1) + 1)) + 3) := by omega
      rw [e, drop_append_len]
      show (lang ++ 0 :: (trans ++ 0 :: cgz)).drop (lang.length + ((trans.length + 1) + 1)) = _
      rw [drop_append_len]
      show (trans ++ 0 :: cgz).drop (trans.length + 1) = _
      rw [drop_append_len]
      rfl
    rw [hfrom1]
    dsimp only
    rw [hfrom2]
    dsimp only
    rw [take_append_len, hflag, hmeth, hdropAll]
    simp [hg, recSet_nil]

/-- Witness for C4: keyword `parameters`, empty language and translated
keyword, and an inflate/gunzip pair mapping two distinct compressed
payloads to the bytes of `hello`. -/
theorem text_chunk_compression_equivalence_witness :
    (0 : Nat) ∉ strBytes "parameters" ∧
    ((fun bs => if bs = [1] then some (strBytes "hello") else none) : List Nat → Option (List Nat)) [1] = some (strBytes "hello") ∧
    parseCompressedTextChunk
      { inertExternals with
        inflate := fun bs => if bs = [1] then some (strBytes "hello") else none,
        gunzip := fun bs => if bs = [2] then some (strBytes "hello") else none }
      (strBytes "parameters" ++ 0 :: 0 :: [1]) [] =
      [(latin1Decode (strBytes "parameters"), utf8Decode (strBytes "hello"))] ∧
    parseInternationalTextChunk
      { inertExternals with
        inflate := fun bs => if bs = [1] then some (strBytes "hello") else none,
        gunzip := fun bs => if bs = [2] then some (strBytes "hello") else none }
      (strBytes "parameters" ++ 0 :: 1 :: 0 :: (([] : List Nat) ++ 0 :: (([] : List Nat) ++ 0 :: [2]))) [] =
      [(latin1Decode (strBytes "parameters"), utf8Decode (strBytes "hello"))] := by
  refine ⟨by decide, rfl, ?_⟩
  exact text_chunk_compression_equivalence
    { inertExternals with
      inflate := fun bs => if bs = [1] then some (strBytes "hello") else none,
      gunzip := fun bs => if bs = [2] then some (strBytes "hello") else none }
    (strBytes "parameters") [] [] [1] [2] (strBytes "hello")
    (by decide) (by decide) (by decide) (by decide) (by decide)

end SDK
